import Mathlib

/-!
# Verification of the storage-migration engine (`synapseutils/migrate_functions.py`)

This file gives a shallow embedding of the migration engine of
`src/synapseutils/migrate_functions.py` and proves or refutes the frozen
claims about it.

Conventions of the embedding:
* SQLite integers are modelled as `Int`, text as `String`, NULLable columns
  as `Option _`.
* The enum values of `_MigrationStatus` and `_MigrationType` are the integers
  the Python code stores in the database (`INDEXED = 1`, ..., `PROJECT = 1`,
  ..., `TABLE_ATTACHED_FILE = 4`).
* Fallible Python code (sqlite errors, `raise`) is modelled with `Except`.
-/

namespace SynapseMigrate

/-- A `Decidable` instance for `<` on `String` that the kernel can evaluate
(the default instance iterates over byte positions by well-founded recursion,
which does not reduce definitionally); needed so that concrete witness
databases can be checked by `decide`. -/
instance (priority := 2000) decLtStr : @DecidableRel String (· < ·) := fun a b =>
  decidable_of_iff (a.toList < b.toList) String.lt_iff_toList_lt.symm

/-- `_MigrationStatus.INDEXED.value` -/
def INDEXED : Int := 1
/-- `_MigrationStatus.MIGRATED.value` -/
def MIGRATED : Int := 2
/-- `_MigrationStatus.ALREADY_MIGRATED.value` -/
def ALREADY_MIGRATED : Int := 3
/-- `_MigrationStatus.ERRORED.value` -/
def ERRORED : Int := 4

/-- `_MigrationType.PROJECT.value` -/
def PROJECT : Int := 1
/-- `_MigrationType.FOLDER.value` -/
def FOLDER : Int := 2
/-- `_MigrationType.FILE.value` -/
def FILE : Int := 3
/-- `_MigrationType.TABLE_ATTACHED_FILE.value` -/
def TABLE_ATTACHED_FILE : Int := 4

/-- `_MigrationStatus(value).name`; `none` models the `ValueError` Python
raises for a value outside the enum. -/
def statusName (v : Int) : Option String :=
  if v = INDEXED then some "INDEXED"
  else if v = MIGRATED then some "MIGRATED"
  else if v = ALREADY_MIGRATED then some "ALREADY_MIGRATED"
  else if v = ERRORED then some "ERRORED"
  else none

/-- One row of the sqlite `migrations` table created by `_ensure_schema`.
Column types follow the `create table` statement: `id text not null`,
`type integer not null`, `version/row_id/col_id integer null`,
`parent_id null`, `status integer not null`, `exception text null`,
`from_storage_location_id null` (integers are stored there),
`from_file_handle_id text null`, `to_file_handle_id text null`. -/
structure Row where
  id : String
  type : Int
  version : Option Int
  row_id : Option Int
  col_id : Option Int
  parent_id : Option String
  status : Int
  exception : Option String
  from_storage_location_id : Option Int
  from_file_handle_id : Option String
  to_file_handle_id : Option String
deriving DecidableEq, Repr

/-- The `_MigrationKey` named tuple `(id, type, version, row_id, col_id)`.
`type` is `Option` because the scheduler's initial sentinel key uses
`type=None`. -/
structure MigrationKey where
  id : String
  type : Option Int
  version : Option Int
  row_id : Option Int
  col_id : Option Int
deriving DecidableEq, Repr

/-- The key of a database row (all components as stored). -/
def rowKey (r : Row) : MigrationKey :=
  ⟨r.id, some r.type, r.version, r.row_id, r.col_id⟩

/-- `_MigrationKey(id='', type=None, row_id=-1, col_id=-1, version=-1)`:
the scheduler's initial cursor (migrate_functions.py line 389). -/
def sentinelKey : MigrationKey :=
  ⟨"", none, some (-1), some (-1), some (-1)⟩

/-! ## The composite order on keys

The spec's §4.3 order is the lexicographic order on
`(id, type, row_id, col_id, version)` with an absent (NULL) component below
every present one.  We realize it by mapping a key into a nested
lexicographic product of `String` and `WithBot Int` (whose `⊥ = none` is the
minimum), which is a linear order. -/

/-- A NULLable integer column viewed in `WithBot Int` (NULL is the minimum,
matching SQLite's `order by ... asc` which sorts NULLs first). -/
def ob : Option Int → WithBot Int
  | none => ⊥
  | some x => (x : WithBot Int)

/-- The order tuple `(id, (type, (row_id, (col_id, version))))`, nested
lexicographically. -/
def keyTup (k : MigrationKey) :
    Lex (String × Lex (WithBot Int × Lex (WithBot Int × Lex (WithBot Int × WithBot Int)))) :=
  toLex (k.id, toLex (ob k.type, toLex (ob k.row_id, toLex (ob k.col_id, ob k.version))))

/-- The composite strict order on migration keys used throughout: §4.3's
`(id, type, row_id, col_id, version)` with NULL as minimum. -/
def keyLt (a b : MigrationKey) : Prop := keyTup a < keyTup b

instance : DecidableRel keyLt := fun a b =>
  inferInstanceAs (Decidable (keyTup a < keyTup b))

/-- Executable strict comparison of NULLable integers, NULL first. -/
def oiLtB : Option Int → Option Int → Bool
  | none, none => false
  | none, some _ => true
  | some _, none => false
  | some a, some b => decide (a < b)

/-- Executable version of `keyLt`, used by the executable scheduler model. -/
def keyLtB (a b : MigrationKey) : Bool :=
  decide (a.id < b.id) ||
    (a.id == b.id &&
      (oiLtB a.type b.type ||
        (a.type == b.type &&
          (oiLtB a.row_id b.row_id ||
            (a.row_id == b.row_id &&
              (oiLtB a.col_id b.col_id ||
                (a.col_id == b.col_id && oiLtB a.version b.version)))))))

theorem ob_lt_iff (x y : Option Int) : ob x < ob y ↔ oiLtB x y = true := by
  cases x <;> cases y <;>
    simp [ob, oiLtB, WithBot.bot_lt_coe, WithBot.coe_lt_coe, lt_self_iff_false,
      not_lt_bot]

theorem ob_inj : ∀ {x y : Option Int}, ob x = ob y → x = y
  | none, none, _ => rfl
  | none, some _, h => absurd h WithBot.bot_ne_coe
  | some _, none, h => absurd h WithBot.coe_ne_bot
  | some _, some _, h => congrArg some (WithBot.coe_inj.mp h)

theorem keyTup_inj {a b : MigrationKey} (h : keyTup a = keyTup b) : a = b := by
  unfold keyTup at h
  have h' := congrArg ofLex h
  simp only [ofLex_toLex, Prod.mk.injEq] at h'
  obtain ⟨h1, h2⟩ := h'
  have h2' := congrArg ofLex h2
  simp only [ofLex_toLex, Prod.mk.injEq] at h2'
  obtain ⟨h3, h4⟩ := h2'
  have h4' := congrArg ofLex h4
  simp only [ofLex_toLex, Prod.mk.injEq] at h4'
  obtain ⟨h5, h6⟩ := h4'
  have h6' := congrArg ofLex h6
  simp only [ofLex_toLex, Prod.mk.injEq] at h6'
  obtain ⟨h7, h8⟩ := h6'
  cases a; cases b
  simp only [MigrationKey.mk.injEq]
  exact ⟨h1, ob_inj h3, ob_inj h8, ob_inj h5, ob_inj h7⟩

theorem keyLt_iff_B (a b : MigrationKey) : keyLt a b ↔ keyLtB a b = true := by
  unfold keyLt keyTup keyLtB
  simp only [Prod.Lex.lt_iff]
  simp only [ob_lt_iff, Bool.or_eq_true, Bool.and_eq_true, decide_eq_true_eq,
    beq_iff_eq]
  constructor
  · rintro (h | ⟨h1, h2⟩)
    · exact Or.inl h
    · refine Or.inr ⟨h1, ?_⟩
      rcases h2 with h | ⟨h3, h4⟩
      · exact Or.inl h
      · refine Or.inr ⟨ob_inj h3, ?_⟩
        rcases h4 with h | ⟨h5, h6⟩
        · exact Or.inl h
        · refine Or.inr ⟨ob_inj h5, ?_⟩
          rcases h6 with h | ⟨h7, h8⟩
          · exact Or.inl h
          · exact Or.inr ⟨ob_inj h7, h8⟩
  · rintro (h | ⟨h1, h2⟩)
    · exact Or.inl h
    · refine Or.inr ⟨h1, ?_⟩
      rcases h2 with h | ⟨h3, h4⟩
      · exact Or.inl h
      · refine Or.inr ⟨congrArg ob h3, ?_⟩
        rcases h4 with h | ⟨h5, h6⟩
        · exact Or.inl h
        · refine Or.inr ⟨congrArg ob h5, ?_⟩
          rcases h6 with h | ⟨h7, h8⟩
          · exact Or.inl h
          · exact Or.inr ⟨congrArg ob h7, h8⟩

theorem keyLt_irrefl (a : MigrationKey) : ¬ keyLt a a := lt_irrefl _

theorem keyLt_trans {a b c : MigrationKey} (h1 : keyLt a b) (h2 : keyLt b c) :
    keyLt a c := lt_trans h1 h2

theorem keyLt_total (a b : MigrationKey) : keyLt a b ∨ a = b ∨ keyLt b a := by
  rcases lt_trichotomy (keyTup a) (keyTup b) with h | h | h
  · exact Or.inl h
  · exact Or.inr (Or.inl (keyTup_inj h))
  · exact Or.inr (Or.inr h)

theorem keyLt_asymm {a b : MigrationKey} (h : keyLt a b) : ¬ keyLt b a :=
  lt_asymm h

/-! ## The migration scheduler (phase 2 of `migrate`, lines 389-506)

The scheduler repeatedly queries the checkpoint for the batch of
`status = INDEXED` payload rows whose key is strictly greater than the last
dispatched key, using the three-way SQL disjunction of lines 429-431, ordered
by `id, type, row_id, col_id, version` with `limit _get_batch_size()` (which
the source hard-codes to `1`, line 225).  It dispatches each returned row,
preceded — when the row is a `TABLE_ATTACHED_FILE` whose id differs from the
previously dispatched key's id and `table_strategy == 'snapshot'` — by a
synchronous `syn.create_snapshot_version(key.id)` call (lines 470-472).

Row statuses are modelled as fixed for the duration of the run: during
phase 2 the only writes are `_wait_futures` updates of already-dispatched
rows from `INDEXED` to `MIGRATED`/`ERRORED`, and (as proved below) a
dispatched row's key is never matched by a later cursor query, so whether
such an update has landed cannot change which rows the queries return. -/

/-- `key.version if key.version is not None else -1` (lines 414-416): the
sentinel substitution applied to the cursor before binding it into the SQL
query. -/
def sentV (o : Option Int) : Int := o.getD (-1)

/-- SQL `col > ?` on a NULLable column: NULL compares as unknown (false). -/
def sqlGT (o : Option Int) (v : Int) : Bool :=
  match o with
  | none => false
  | some x => decide (v < x)

/-- SQL `col = ?` on a NULLable column: NULL compares as unknown (false). -/
def sqlEQ (o : Option Int) (v : Int) : Bool :=
  match o with
  | none => false
  | some x => decide (x = v)

/-- The scheduler's cursor query predicate (the `where` clause of lines
427-431):

```
status = INDEXED
and ((id > ? and type in (FILE, TABLE_ATTACHED_FILE))
     or (id = ? and type = FILE and version is not null and version > ?)
     or (id = ? and type = TABLE_ATTACHED_FILE
         and (row_id > ? or (row_id = ? and col_id > ?))))
```

bound with the cursor key's components, `-1` substituted for its absent
`version`, `row_id`, `col_id`. -/
def whereClause (k : MigrationKey) (r : Row) : Bool :=
  (r.status == INDEXED) &&
    ((decide (k.id < r.id) && (r.type == FILE || r.type == TABLE_ATTACHED_FILE)) ||
      (r.id == k.id && r.type == FILE && sqlGT r.version (sentV k.version)) ||
      (r.id == k.id && r.type == TABLE_ATTACHED_FILE &&
        (sqlGT r.row_id (sentV k.row_id) ||
          (sqlEQ r.row_id (sentV k.row_id) && sqlGT r.col_id (sentV k.col_id)))))

/-- The minimum of a list of rows under the `order by id, type, row_id,
col_id, version` ordering (NULLs first); `none` on the empty list.  With
`limit 1` the cursor query returns exactly this row. -/
def pickMin : List Row → Option Row
  | [] => none
  | r :: rs =>
    match pickMin rs with
    | none => some r
    | some m => if keyLtB (rowKey m) (rowKey r) then some m else some r

/-- Observable scheduler events: a `create_snapshot_version` call or the
dispatch of one row's migration task to the executor. -/
inductive Event
  | snapshot (id : String)
  | dispatch (r : Row)
deriving DecidableEq, Repr

/-- One run of the scheduler loop (lines 398-494), driven by `fuel` to make
termination syntactic.  At each iteration the cursor query returns the least
pending row strictly beyond the cursor `k`; the loop emits the snapshot
event when lines 470-472 would call the entity service, dispatches the row,
and continues with the row's key as the new cursor. -/
def runLoop (tableStrategy : Option String) (db : List Row) :
    Nat → MigrationKey → List Event
  | 0, _ => []
  | fuel + 1, k =>
    match pickMin (db.filter (whereClause k)) with
    | none => []
    | some m =>
      (if m.type = TABLE_ATTACHED_FILE ∧ k.id ≠ m.id ∧ tableStrategy = some "snapshot"
        then [Event.snapshot m.id] else []) ++
      Event.dispatch m :: runLoop tableStrategy db fuel (rowKey m)

/-- The full scheduler run over a checkpoint `db`: start from the sentinel
cursor with enough fuel for every row. -/
def migrateDispatch (tableStrategy : Option String) (db : List Row) : List Event :=
  runLoop tableStrategy db (db.length + 1) sentinelKey

theorem runLoop_zero (strat : Option String) (db : List Row) (k : MigrationKey) :
    runLoop strat db 0 k = [] := rfl

theorem runLoop_succ_none {db : List Row} {k : MigrationKey}
    (strat : Option String) (n : Nat)
    (hp : pickMin (db.filter (whereClause k)) = none) :
    runLoop strat db (n + 1) k = [] := by
  rw [runLoop, hp]

theorem runLoop_succ_some {db : List Row} {k : MigrationKey} {m : Row}
    (strat : Option String) (n : Nat)
    (hp : pickMin (db.filter (whereClause k)) = some m) :
    runLoop strat db (n + 1) k =
      (if m.type = TABLE_ATTACHED_FILE ∧ k.id ≠ m.id ∧ strat = some "snapshot"
        then [Event.snapshot m.id] else []) ++
      Event.dispatch m :: runLoop strat db n (rowKey m) := by
  rw [runLoop, hp]

/-- The rows dispatched during a run, in dispatch order. -/
def dispatches (evs : List Event) : List Row :=
  evs.filterMap fun e =>
    match e with
    | .dispatch r => some r
    | _ => none

/-! ## Propositional views of the query predicate and the order -/

/-- A row that represents payload work (`FILE` or `TABLE_ATTACHED_FILE`). -/
def payload (r : Row) : Prop :=
  r.type = FILE ∨ r.type = TABLE_ATTACHED_FILE

instance : DecidablePred payload := fun r => by unfold payload; infer_instance

theorem sqlGT_iff (o : Option Int) (v : Int) :
    sqlGT o v = true ↔ ∃ x, o = some x ∧ v < x := by
  cases o <;> simp [sqlGT]

theorem sqlEQ_iff (o : Option Int) (v : Int) :
    sqlEQ o v = true ↔ o = some v := by
  cases o <;> simp [sqlEQ]

/-- Propositional reading of `whereClause`. -/
def whereClauseP (k : MigrationKey) (r : Row) : Prop :=
  r.status = INDEXED ∧
    ((k.id < r.id ∧ payload r) ∨
      (r.id = k.id ∧ r.type = FILE ∧ ∃ v, r.version = some v ∧ sentV k.version < v) ∨
      (r.id = k.id ∧ r.type = TABLE_ATTACHED_FILE ∧
        ((∃ a, r.row_id = some a ∧ sentV k.row_id < a) ∨
          (r.row_id = some (sentV k.row_id) ∧
            ∃ c, r.col_id = some c ∧ sentV k.col_id < c))))

theorem whereClause_iff (k : MigrationKey) (r : Row) :
    whereClause k r = true ↔ whereClauseP k r := by
  unfold whereClause whereClauseP payload
  simp only [Bool.and_eq_true, Bool.or_eq_true, decide_eq_true_eq, beq_iff_eq,
    sqlGT_iff, sqlEQ_iff, and_assoc, or_assoc]

/-- Propositional strict comparison of NULLable integers, NULL minimal. -/
def oiLt : Option Int → Option Int → Prop
  | none, none => False
  | none, some _ => True
  | some _, none => False
  | some a, some b => a < b

theorem oiLt_iff_B (x y : Option Int) : oiLt x y ↔ oiLtB x y = true := by
  cases x <;> cases y <;> simp [oiLt, oiLtB]

/-- Propositional reading of the composite key order `keyLt`. -/
def keyLtP (a b : MigrationKey) : Prop :=
  a.id < b.id ∨
    (a.id = b.id ∧
      (oiLt a.type b.type ∨
        (a.type = b.type ∧
          (oiLt a.row_id b.row_id ∨
            (a.row_id = b.row_id ∧
              (oiLt a.col_id b.col_id ∨
                (a.col_id = b.col_id ∧ oiLt a.version b.version)))))))

theorem keyLt_iff_P (a b : MigrationKey) : keyLt a b ↔ keyLtP a b := by
  rw [keyLt_iff_B]
  unfold keyLtB keyLtP
  simp only [Bool.or_eq_true, Bool.and_eq_true, decide_eq_true_eq, beq_iff_eq,
    oiLt_iff_B]

/-! ## Well-formed checkpoints

These are the shape facts that hold of every checkpoint the indexer can
produce (see `_index_file_entity`, `_index_table_entity`, `_index_container`):
ids are nonempty Synapse ids; `FILE` rows leave `row_id`/`col_id` NULL and
carry a nonnegative version when one is present; `TABLE_ATTACHED_FILE` rows
carry nonnegative `version` (the row version), `row_id` and `col_id`; an
entity id is a file entity or a table entity, never both; and no two rows
share a primary key, nor two table rows a `(id, row_id, col_id)` cell. -/

/-- Shape of a single indexer-written row. -/
def wfRow (r : Row) : Prop :=
  "" < r.id ∧
    (r.type = FILE → r.row_id = none ∧ r.col_id = none ∧ 0 ≤ r.version.getD 0) ∧
    (r.type = TABLE_ATTACHED_FILE →
      r.version ≠ none ∧ r.row_id ≠ none ∧ r.col_id ≠ none ∧
        0 ≤ r.version.getD 0 ∧ 0 ≤ r.row_id.getD 0 ∧ 0 ≤ r.col_id.getD 0)

instance : DecidablePred wfRow := fun r => by unfold wfRow; infer_instance

/-- Two table rows do not address the same cell. -/
def distinctCells (r s : Row) : Prop :=
  ¬(r.type = TABLE_ATTACHED_FILE ∧ s.type = TABLE_ATTACHED_FILE ∧
    r.id = s.id ∧ r.row_id = s.row_id ∧ r.col_id = s.col_id)

instance : ∀ r s, Decidable (distinctCells r s) := fun r s => by
  unfold distinctCells; infer_instance

/-- Well-formed checkpoint database. -/
def wfDb (db : List Row) : Prop :=
  (∀ r ∈ db, wfRow r) ∧
    (∀ r ∈ db, ∀ s ∈ db, r.id = s.id → payload r → payload s → r.type = s.type) ∧
    List.Pairwise (fun r s => rowKey r ≠ rowKey s ∧ distinctCells r s) db

instance : DecidablePred wfDb := fun db => by unfold wfDb; infer_instance

/-- A cursor value the scheduler can actually hold: the sentinel, or the key
of a payload row of the database. -/
def validCursor (db : List Row) (k : MigrationKey) : Prop :=
  k = sentinelKey ∨ ∃ m ∈ db, payload m ∧ k = rowKey m

theorem wfDb_distinct {db : List Row} (h : wfDb db) {r s : Row}
    (hr : r ∈ db) (hs : s ∈ db) (hne : r ≠ s) :
    rowKey r ≠ rowKey s ∧ distinctCells r s := by
  refine List.Pairwise.forall ?_ h.2.2 hr hs hne
  rintro a b ⟨h1, h2⟩
  refine ⟨Ne.symm h1, ?_⟩
  rintro ⟨ta, tb, hid, hrow, hcol⟩
  exact h2 ⟨tb, ta, hid.symm, hrow.symm, hcol.symm⟩

theorem sentV_none : sentV none = -1 := rfl

theorem sentV_some (x : Int) : sentV (some x) = x := rfl

/-- Any row matched by the cursor query is `INDEXED` payload work.  This
needs no well-formedness: the `where` clause itself constrains status and
type. -/
theorem whereClauseP_payload {k : MigrationKey} {r : Row}
    (h : whereClauseP k r) : r.status = INDEXED ∧ payload r := by
  obtain ⟨hs, hb⟩ := h
  refine ⟨hs, ?_⟩
  rcases hb with ⟨_, hp⟩ | ⟨_, ht, _⟩ | ⟨_, ht, _⟩
  · exact hp
  · exact Or.inl ht
  · exact Or.inr ht

/-- **Forward selection lemma.**  Over a well-formed checkpoint, every row
matched by the cursor query is strictly greater than the cursor in the
composite `(id, type, row_id, col_id, version)` order. -/
theorem sel_keyLt {db : List Row} {k : MigrationKey} {r : Row}
    (hwf : wfDb db) (hk : validCursor db k) (hr : r ∈ db)
    (hsel : whereClauseP k r) : keyLtP k (rowKey r) := by
  obtain ⟨hwfr, hnomix, _⟩ := hwf
  obtain ⟨hstat, hbr⟩ := hsel
  have hwr := hwfr r hr
  unfold keyLtP
  rcases hbr with ⟨hlt, _⟩ | ⟨hid, htype, v, hv, hgt⟩ | ⟨hid, htype, hcell⟩
  · exact Or.inl hlt
  · rcases hk with hk | ⟨m, hm, hmp, hkey⟩
    · subst hk
      exact absurd (hid ▸ hwr.1) (lt_irrefl _)
    · subst hkey
      have hmt : m.type = FILE := by
        have := hnomix r hr m hm hid (Or.inl htype) hmp
        rw [← this, htype]
      obtain ⟨mrow, mcol, _⟩ := (hwfr m hm).2.1 hmt
      obtain ⟨rrow, rcol, _⟩ := hwr.2.1 htype
      refine Or.inr ⟨hid.symm, Or.inr ⟨?_, Or.inr ⟨?_, Or.inr ⟨?_, ?_⟩⟩⟩⟩
      · show some m.type = some r.type
        rw [hmt, htype]
      · show m.row_id = r.row_id
        rw [mrow, rrow]
      · show m.col_id = r.col_id
        rw [mcol, rcol]
      · show oiLt m.version r.version
        rw [hv]
        cases hmv : m.version with
        | none => exact trivial
        | some w =>
          show w < v
          have hgt' : sentV m.version < v := hgt
          rw [hmv, sentV_some] at hgt'
          exact hgt'
  · rcases hk with hk | ⟨m, hm, hmp, hkey⟩
    · subst hk
      exact absurd (hid ▸ hwr.1) (lt_irrefl _)
    · subst hkey
      have hmt : m.type = TABLE_ATTACHED_FILE := by
        have := hnomix r hr m hm hid (Or.inr htype) hmp
        rw [← this, htype]
      obtain ⟨_, hmrne, hmcne, _, _, _⟩ := (hwfr m hm).2.2 hmt
      obtain ⟨mr, hmr'⟩ := Option.ne_none_iff_exists'.mp hmrne
      obtain ⟨mc, hmc'⟩ := Option.ne_none_iff_exists'.mp hmcne
      rcases hcell with ⟨a, ha, hagt⟩ | ⟨hre, c, hc, hcgt⟩
      · refine Or.inr ⟨hid.symm, Or.inr ⟨?_, Or.inl ?_⟩⟩
        · show some m.type = some r.type
          rw [hmt, htype]
        · show oiLt m.row_id r.row_id
          rw [hmr', ha]
          show mr < a
          have hagt' : sentV m.row_id < a := hagt
          rw [hmr', sentV_some] at hagt'
          exact hagt'
      · refine Or.inr ⟨hid.symm, Or.inr ⟨?_, Or.inr ⟨?_, Or.inl ?_⟩⟩⟩
        · show some m.type = some r.type
          rw [hmt, htype]
        · show m.row_id = r.row_id
          have hre' : r.row_id = some (sentV m.row_id) := hre
          rw [hmr', sentV_some] at hre'
          rw [hmr', hre']
        · show oiLt m.col_id r.col_id
          rw [hmc', hc]
          show mc < c
          have hcgt' : sentV m.col_id < c := hcgt
          rw [hmc', sentV_some] at hcgt'
          exact hcgt'

/-- **Backward selection lemma.**  Over a well-formed checkpoint, every
`INDEXED` payload row strictly greater than the cursor is matched by the
cursor query: the three-way disjunction loses nothing. -/
theorem keyLt_sel {db : List Row} {k : MigrationKey} {r : Row}
    (hwf : wfDb db) (hk : validCursor db k) (hr : r ∈ db)
    (hstat : r.status = INDEXED) (hpay : payload r)
    (hlt : keyLtP k (rowKey r)) : whereClauseP k r := by
  have hwfr := hwf.1
  have hnomix := hwf.2.1
  have hwr := hwfr r hr
  refine ⟨hstat, ?_⟩
  rcases hk with hk | ⟨m, hm, hmp, hkey⟩
  · subst hk
    exact Or.inl ⟨hwr.1, hpay⟩
  · subst hkey
    rcases hlt with hlt | ⟨hid, hrest⟩
    · exact Or.inl ⟨hlt, hpay⟩
    · have hmr_t : m.type = r.type := hnomix m hm r hr hid hmp hpay
      rcases hrest with hto | ⟨hteq, hrest2⟩
      · rw [show ((rowKey m).type = some m.type) from rfl,
          show ((rowKey r).type = some r.type) from rfl, hmr_t] at hto
        exact absurd hto (lt_irrefl r.type)
      · rcases hpay with hf | ht
        · -- FILE rows on both sides of the comparison
          have hmf : m.type = FILE := by rw [hmr_t, hf]
          obtain ⟨mrow, mcol, _⟩ := (hwfr m hm).2.1 hmf
          obtain ⟨rrow, rcol, rvnn⟩ := hwr.2.1 hf
          rcases hrest2 with hro | ⟨hre, hrest3⟩
          · rw [show ((rowKey m).row_id = m.row_id) from rfl,
              show ((rowKey r).row_id = r.row_id) from rfl, mrow, rrow] at hro
            exact absurd hro id
          · rcases hrest3 with hco | ⟨hce, hver⟩
            · rw [show ((rowKey m).col_id = m.col_id) from rfl,
                show ((rowKey r).col_id = r.col_id) from rfl, mcol, rcol] at hco
              exact absurd hco id
            · refine Or.inr (Or.inl ⟨hid.symm, hf, ?_⟩)
              have hver' : oiLt m.version r.version := hver
              cases hmv : m.version with
              | none =>
                rw [hmv] at hver'
                cases hrv : r.version with
                | none => rw [hrv] at hver'; exact absurd hver' id
                | some v =>
                  refine ⟨v, rfl, ?_⟩
                  have h0 : (0:Int) ≤ v := by
                    rw [hrv] at rvnn
                    simpa using rvnn
                  show sentV m.version < v
                  rw [hmv, sentV_none]
                  omega
              | some w =>
                rw [hmv] at hver'
                cases hrv : r.version with
                | none => rw [hrv] at hver'; exact absurd hver' id
                | some v =>
                  refine ⟨v, rfl, ?_⟩
                  rw [hrv] at hver'
                  show sentV m.version < v
                  rw [hmv, sentV_some]
                  exact hver'
        · -- TABLE_ATTACHED_FILE rows on both sides
          have hmt : m.type = TABLE_ATTACHED_FILE := by rw [hmr_t, ht]
          obtain ⟨hmvne, hmrne, hmcne, _, _, _⟩ := (hwfr m hm).2.2 hmt
          obtain ⟨_, hrrne, hrcne, _, _, _⟩ := hwr.2.2 ht
          obtain ⟨mr, hmr'⟩ := Option.ne_none_iff_exists'.mp hmrne
          obtain ⟨mc, hmc'⟩ := Option.ne_none_iff_exists'.mp hmcne
          obtain ⟨ra, hra⟩ := Option.ne_none_iff_exists'.mp hrrne
          obtain ⟨rc, hrc⟩ := Option.ne_none_iff_exists'.mp hrcne
          rcases hrest2 with hro | ⟨hre, hrest3⟩
          · refine Or.inr (Or.inr ⟨hid.symm, ht, Or.inl ⟨ra, hra, ?_⟩⟩)
            have hro' : oiLt m.row_id r.row_id := hro
            rw [hmr', hra] at hro'
            show sentV m.row_id < ra
            rw [hmr', sentV_some]
            exact hro'
          · rcases hrest3 with hco | ⟨hce, hver⟩
            · refine Or.inr (Or.inr ⟨hid.symm, ht, Or.inr ⟨?_, rc, hrc, ?_⟩⟩)
              · have hre' : m.row_id = r.row_id := hre
                show r.row_id = some (sentV m.row_id)
                rw [hmr', sentV_some, ← hre', hmr']
              · have hco' : oiLt m.col_id r.col_id := hco
                rw [hmc', hrc] at hco'
                show sentV m.col_id < rc
                rw [hmc', sentV_some]
                exact hco'
            · -- equal id, row_id, col_id with both rows TABLE_ATTACHED_FILE:
              -- impossible in a well-formed checkpoint
              exfalso
              obtain ⟨mv, hmv'⟩ := Option.ne_none_iff_exists'.mp hmvne
              have hne : r ≠ m := by
                intro he
                have hver' : oiLt m.version r.version := hver
                rw [he, hmv'] at hver'
                exact absurd hver' (lt_irrefl mv)
              have hdc := (wfDb_distinct ⟨hwfr, hnomix, hwf.2.2⟩ hr hm hne).2
              have hre' : m.row_id = r.row_id := hre
              have hce' : m.col_id = r.col_id := hce
              exact hdc ⟨ht, hmt, hid.symm, hre'.symm, hce'.symm⟩

/-! ## Properties of `pickMin` -/

theorem pickMin_eq_nil {l : List Row} (h : pickMin l = none) : l = [] := by
  cases l with
  | nil => rfl
  | cons r rs =>
    exfalso
    rw [pickMin] at h
    split at h
    · exact Option.some_ne_none _ h
    · split at h <;> exact Option.some_ne_none _ h

theorem pickMin_mem : ∀ {l : List Row} {m : Row}, pickMin l = some m → m ∈ l := by
  intro l
  induction l with
  | nil => intro m h; simp [pickMin] at h
  | cons r rs ih =>
    intro m h
    rw [pickMin] at h
    split at h
    · injection h with h
      simp [h]
    · rename_i m' hp
      split at h
      · injection h with h
        exact h ▸ List.mem_cons_of_mem _ (ih hp)
      · injection h with h
        simp [h]

theorem pickMin_min : ∀ {l : List Row} {m : Row}, pickMin l = some m →
    ∀ x ∈ l, ¬ keyLt (rowKey x) (rowKey m) := by
  intro l
  induction l with
  | nil => intro m h; simp [pickMin] at h
  | cons r rs ih =>
    intro m h x hx
    rw [pickMin] at h
    split at h
    · rename_i hp
      injection h with h
      subst h
      rw [pickMin_eq_nil hp] at hx
      rcases List.mem_singleton.mp hx with rfl
      exact keyLt_irrefl _
    · rename_i m' hp
      split at h
      · rename_i hcmp
        injection h with h
        subst h
        rcases List.mem_cons.mp hx with rfl | hx'
        · exact fun hxr => keyLt_asymm hxr ((keyLt_iff_B _ _).mpr hcmp)
        · exact ih hp x hx'
      · rename_i hcmp
        injection h with h
        subst h
        rcases List.mem_cons.mp hx with rfl | hx'
        · exact keyLt_irrefl _
        · intro hxr
          have hxm' := ih hp x hx'
          have h1 : keyTup (rowKey r) ≤ keyTup (rowKey m') :=
            le_of_not_lt fun hc => hcmp ((keyLt_iff_B _ _).mp hc)
          exact hxm' (lt_of_lt_of_le hxr h1)

/-! ## Properties of `dispatches` -/

theorem dispatches_append (l1 l2 : List Event) :
    dispatches (l1 ++ l2) = dispatches l1 ++ dispatches l2 :=
  List.filterMap_append l1 l2 _

theorem dispatches_cons_dispatch (r : Row) (l : List Event) :
    dispatches (Event.dispatch r :: l) = r :: dispatches l := rfl

theorem dispatches_pre (c : Prop) [Decidable c] (i : String) :
    dispatches (if c then [Event.snapshot i] else []) = [] := by
  split <;> rfl

/-! ## The dispatch sequence ascends strictly in the composite key order -/

theorem runLoop_chain {db : List Row} (hwf : wfDb db) (strat : Option String) :
    ∀ (fuel : Nat) (k : MigrationKey), validCursor db k →
      List.Chain keyLt k ((dispatches (runLoop strat db fuel k)).map rowKey) := by
  intro fuel
  induction fuel with
  | zero =>
    intro k _
    exact List.Chain.nil
  | succ n ih =>
    intro k hk
    rw [runLoop]
    cases hp : pickMin (db.filter (whereClause k)) with
    | none => exact List.Chain.nil
    | some m =>
      have hmem := pickMin_mem hp
      rw [List.mem_filter] at hmem
      obtain ⟨hmdb, hmsel⟩ := hmem
      have hselP := (whereClause_iff k m).mp hmsel
      have hlt : keyLt k (rowKey m) :=
        (keyLt_iff_P _ _).mpr (sel_keyLt hwf hk hmdb hselP)
      have hpay : payload m := (whereClauseP_payload hselP).2
      have hk' : validCursor db (rowKey m) := Or.inr ⟨m, hmdb, hpay, rfl⟩
      rw [dispatches_append, dispatches_pre, dispatches_cons_dispatch,
        List.nil_append, List.map_cons]
      exact List.Chain.cons hlt (ih (rowKey m) hk')

/-- Only rows that are present in the checkpoint with `status = INDEXED` and
a payload type are ever dispatched (no well-formedness needed). -/
theorem runLoop_dispatch_indexed (strat : Option String) (db : List Row) :
    ∀ (fuel : Nat) (k : MigrationKey) {r : Row},
      Event.dispatch r ∈ runLoop strat db fuel k →
      r ∈ db ∧ r.status = INDEXED ∧ payload r := by
  intro fuel
  induction fuel with
  | zero => intro k r h; exact absurd h (List.not_mem_nil _)
  | succ n ih =>
    intro k r h
    rw [runLoop] at h
    split at h
    · exact absurd h (List.not_mem_nil _)
    · rename_i m hp
      rcases List.mem_append.mp h with hpre | hrest
      · split at hpre <;> simp at hpre
      · rcases List.mem_cons.mp hrest with he | htail
        · injection he with he
          subst he
          have hmem := pickMin_mem hp
          rw [List.mem_filter] at hmem
          have hselP := (whereClause_iff k r).mp hmem.2
          exact ⟨hmem.1, (whereClauseP_payload hselP).1, (whereClauseP_payload hselP).2⟩
        · exact ih (rowKey m) htail

/-! ## Fuel accounting: each step strictly shrinks the pending set -/

theorem countP_mono {α : Type} {l : List α} {p q : α → Bool}
    (h : ∀ a ∈ l, q a = true → p a = true) : l.countP q ≤ l.countP p := by
  induction l with
  | nil => simp
  | cons a l ih =>
    rw [List.countP_cons, List.countP_cons]
    have h1 := ih fun a ha => h a (List.mem_cons_of_mem _ ha)
    by_cases hq : q a = true
    · rw [if_pos hq, if_pos (h a (List.mem_cons_self _ _) hq)]
      omega
    · rw [if_neg hq]
      by_cases hp : p a = true
      · rw [if_pos hp]; omega
      · rw [if_neg hp]; omega

theorem countP_lt_of_strict {α : Type} {l : List α} {p q : α → Bool}
    (himp : ∀ a ∈ l, q a = true → p a = true) {m : α} (hm : m ∈ l)
    (hp : p m = true) (hq : q m = false) :
    l.countP q < l.countP p := by
  induction l with
  | nil => cases hm
  | cons a l ih =>
    rw [List.countP_cons, List.countP_cons]
    have h1 : l.countP q ≤ l.countP p :=
      countP_mono fun x hx => himp x (List.mem_cons_of_mem _ hx)
    rcases List.mem_cons.mp hm with rfl | hm'
    · have hq' : ¬ q m = true := by rw [hq]; exact Bool.false_ne_true
      rw [if_pos hp, if_neg hq']
      omega
    · have h2 := ih (fun x hx h => himp x (List.mem_cons_of_mem _ hx) h) hm'
      by_cases hqa : q a = true
      · rw [if_pos hqa, if_pos (himp a (List.mem_cons_self _ _) hqa)]
        omega
      · rw [if_neg hqa]
        by_cases hpa : p a = true
        · rw [if_pos hpa]; omega
        · rw [if_neg hpa]; omega

theorem step_decrease {db : List Row} (hwf : wfDb db) {k : MigrationKey} {m : Row}
    (hk : validCursor db k)
    (hp : pickMin (db.filter (whereClause k)) = some m) :
    db.countP (whereClause (rowKey m)) < db.countP (whereClause k) := by
  have hmem := pickMin_mem hp
  rw [List.mem_filter] at hmem
  obtain ⟨hmdb, hmsel⟩ := hmem
  have hselP := (whereClause_iff _ _).mp hmsel
  have hpay := (whereClauseP_payload hselP).2
  have hk' : validCursor db (rowKey m) := Or.inr ⟨m, hmdb, hpay, rfl⟩
  refine countP_lt_of_strict ?_ hmdb hmsel ?_
  · intro r hr hsel'
    have hselP' := (whereClause_iff _ _).mp hsel'
    have hlt' := (keyLt_iff_P _ _).mpr (sel_keyLt hwf hk' hr hselP')
    have hlt := (keyLt_iff_P _ _).mpr (sel_keyLt hwf hk hmdb hselP)
    have hkr : keyLtP k (rowKey r) := (keyLt_iff_P _ _).mp (keyLt_trans hlt hlt')
    have hst := (whereClauseP_payload hselP').1
    have hpy := (whereClauseP_payload hselP').2
    exact (whereClause_iff _ _).mpr (keyLt_sel hwf hk hr hst hpy hkr)
  · cases hcase : whereClause (rowKey m) m with
    | false => rfl
    | true =>
      have hselfP := (whereClause_iff _ _).mp hcase
      have := (keyLt_iff_P _ _).mpr (sel_keyLt hwf hk' hmdb hselfP)
      exact absurd this (keyLt_irrefl _)

/-! ## Completeness: every pending payload row beyond the cursor is
dispatched -/

theorem runLoop_complete {db : List Row} (hwf : wfDb db) (strat : Option String) :
    ∀ (fuel : Nat) (k : MigrationKey), validCursor db k →
      db.countP (whereClause k) < fuel →
      ∀ r ∈ db, whereClause k r = true →
        Event.dispatch r ∈ runLoop strat db fuel k := by
  intro fuel
  induction fuel with
  | zero => intro k _ h; exact absurd h (Nat.not_lt_zero _)
  | succ n ih =>
    intro k hk hfuel r hr hsel
    rw [runLoop]
    cases hp : pickMin (db.filter (whereClause k)) with
    | none =>
      have hmem : r ∈ db.filter (whereClause k) := List.mem_filter.mpr ⟨hr, hsel⟩
      rw [pickMin_eq_nil hp] at hmem
      cases hmem
    | some m =>
      by_cases hrm : r = m
      · subst hrm
        exact List.mem_append.mpr (Or.inr (List.mem_cons_self _ _))
      · have hmem := pickMin_mem hp
        rw [List.mem_filter] at hmem
        obtain ⟨hmdb, hmsel⟩ := hmem
        have hselP := (whereClause_iff _ _).mp hsel
        have hmselP := (whereClause_iff _ _).mp hmsel
        have hpay := (whereClauseP_payload hmselP).2
        have hk' : validCursor db (rowKey m) := Or.inr ⟨m, hmdb, hpay, rfl⟩
        have hxr : ¬ keyLt (rowKey r) (rowKey m) :=
          pickMin_min hp r (List.mem_filter.mpr ⟨hr, hsel⟩)
        have hkey_ne : rowKey r ≠ rowKey m := (wfDb_distinct hwf hr hmdb hrm).1
        have hmr : keyLt (rowKey m) (rowKey r) := by
          rcases keyLt_total (rowKey m) (rowKey r) with h | h | h
          · exact h
          · exact absurd h.symm hkey_ne
          · exact absurd h hxr
        have hsel' : whereClause (rowKey m) r = true :=
          (whereClause_iff _ _).mpr
            (keyLt_sel hwf hk' hr (whereClauseP_payload hselP).1
              (whereClauseP_payload hselP).2 ((keyLt_iff_P _ _).mp hmr))
        have hdec := step_decrease hwf hk hp
        have htail := ih (rowKey m) hk' (by omega) r hr hsel'
        exact List.mem_append.mpr (Or.inr (List.mem_cons_of_mem _ htail))

/-- If `m` is the row the cursor query at `k` returns and `r ≠ m` is another
row matched at `k`, then `r` is still matched at cursor `rowKey m`. -/
theorem sel_advance {db : List Row} {k : MigrationKey} {m r : Row}
    (hwf : wfDb db) (hk : validCursor db k)
    (hp : pickMin (db.filter (whereClause k)) = some m)
    (hr : r ∈ db) (hsel : whereClause k r = true) (hrm : r ≠ m) :
    whereClause (rowKey m) r = true := by
  have hmem := pickMin_mem hp
  rw [List.mem_filter] at hmem
  obtain ⟨hmdb, hmsel⟩ := hmem
  have hselP := (whereClause_iff _ _).mp hsel
  have hmselP := (whereClause_iff _ _).mp hmsel
  have hpay := (whereClauseP_payload hmselP).2
  have hk' : validCursor db (rowKey m) := Or.inr ⟨m, hmdb, hpay, rfl⟩
  have hxr : ¬ keyLt (rowKey r) (rowKey m) :=
    pickMin_min hp r (List.mem_filter.mpr ⟨hr, hsel⟩)
  have hkey_ne : rowKey r ≠ rowKey m := (wfDb_distinct hwf hr hmdb hrm).1
  have hmr : keyLt (rowKey m) (rowKey r) := by
    rcases keyLt_total (rowKey m) (rowKey r) with h | h | h
    · exact h
    · exact absurd h.symm hkey_ne
    · exact absurd h hxr
  exact (whereClause_iff _ _).mpr
    (keyLt_sel hwf hk' hr (whereClauseP_payload hselP).1
      (whereClauseP_payload hselP).2 ((keyLt_iff_P _ _).mp hmr))

/-! ## Snapshot discipline (lines 470-472) -/

theorem keyLtP_id_le {a b : MigrationKey} (h : keyLtP a b) : a.id ≤ b.id := by
  rcases h with h | ⟨h, _⟩
  · exact le_of_lt h
  · exact le_of_eq h

/-- Once the cursor id has reached or passed `T`, no `snapshot T` event is
ever emitted again: the dispatch sequence only moves forward through ids, and
the snapshot guard requires the previous key's id to differ from the (not
smaller) dispatched id. -/
theorem runLoop_no_snapshot_ge {db : List Row} (hwf : wfDb db)
    (strat : Option String) {T : String} :
    ∀ (fuel : Nat) (k : MigrationKey), validCursor db k → T ≤ k.id →
      Event.snapshot T ∉ runLoop strat db fuel k := by
  intro fuel
  induction fuel with
  | zero => intro k _ _ h; exact absurd h (List.not_mem_nil _)
  | succ n ih =>
    intro k hk hTk h
    rw [runLoop] at h
    split at h
    · exact absurd h (List.not_mem_nil _)
    · rename_i m hp
      have hmem := pickMin_mem hp
      rw [List.mem_filter] at hmem
      obtain ⟨hmdb, hmsel⟩ := hmem
      have hselP := (whereClause_iff _ _).mp hmsel
      have hlt := sel_keyLt hwf hk hmdb hselP
      have hkid : k.id ≤ m.id := keyLtP_id_le hlt
      have hpay := (whereClauseP_payload hselP).2
      have hk' : validCursor db (rowKey m) := Or.inr ⟨m, hmdb, hpay, rfl⟩
      rcases List.mem_append.mp h with hpre | hrest
      · split at hpre
        · rename_i hcond
          have heq := List.mem_singleton.mp hpre
          injection heq with heq
          subst heq
          exact hcond.2.1 (le_antisymm hkid hTk)
        · exact absurd hpre (List.not_mem_nil _)
      · rcases List.mem_cons.mp hrest with he | htail
        · exact Event.noConfusion he
        · exact ih (rowKey m) hk' (le_trans hTk hkid) htail

/-- Main snapshot lemma: if a pending `TABLE_ATTACHED_FILE` row with id `T`
is matched by the cursor query at `k` and `k.id ≠ T`, then the remaining run
emits exactly one `snapshot T` event, and no row of table `T` is dispatched
before it. -/
theorem runLoop_snapshot_found {db : List Row} (hwf : wfDb db) {T : String} :
    ∀ (fuel : Nat) (k : MigrationKey), validCursor db k →
      db.countP (whereClause k) < fuel → k.id ≠ T →
      (∃ r ∈ db, r.type = TABLE_ATTACHED_FILE ∧ r.id = T ∧
        whereClause k r = true) →
      ∃ l1 l2, runLoop (some "snapshot") db fuel k =
          l1 ++ Event.snapshot T :: l2 ∧
        Event.snapshot T ∉ l1 ∧ Event.snapshot T ∉ l2 ∧
        ∀ s, Event.dispatch s ∈ l1 → s.id ≠ T := by
  intro fuel
  induction fuel with
  | zero => intro k _ h; exact absurd h (Nat.not_lt_zero _)
  | succ n ih =>
    intro k hk hfuel hkT hex
    obtain ⟨rT, hrT, hrT_t, hrT_id, hrT_sel⟩ := hex
    cases hp : pickMin (db.filter (whereClause k)) with
    | none =>
      exfalso
      have hmem : rT ∈ db.filter (whereClause k) :=
        List.mem_filter.mpr ⟨hrT, hrT_sel⟩
      rw [pickMin_eq_nil hp] at hmem
      cases hmem
    | some m =>
      rw [runLoop_succ_some _ _ hp]
      have hmem := pickMin_mem hp
      rw [List.mem_filter] at hmem
      obtain ⟨hmdb, hmsel⟩ := hmem
      have hmselP := (whereClause_iff _ _).mp hmsel
      have hmpay := (whereClauseP_payload hmselP).2
      have hk' : validCursor db (rowKey m) := Or.inr ⟨m, hmdb, hmpay, rfl⟩
      have hdec := step_decrease hwf hk hp
      by_cases hmT : m.id = T
      · -- `m` is the first dispatched row of table `T`: the snapshot fires
        -- right before it
        have hmt : m.type = TABLE_ATTACHED_FILE := by
          have := hwf.2.1 m hmdb rT hrT (by rw [hmT, hrT_id]) hmpay
            (Or.inr hrT_t)
          rw [this, hrT_t]
        have hcond : m.type = TABLE_ATTACHED_FILE ∧ k.id ≠ m.id ∧
            (some "snapshot" : Option String) = some "snapshot" :=
          ⟨hmt, by rw [hmT]; exact hkT, rfl⟩
        rw [if_pos hcond]
        refine ⟨[], Event.dispatch m :: runLoop (some "snapshot") db n (rowKey m),
          ?_, List.not_mem_nil _, ?_, ?_⟩
        · rw [hmT]
          rfl
        · intro hmem2
          rcases List.mem_cons.mp hmem2 with he | htail
          · exact Event.noConfusion he
          · exact runLoop_no_snapshot_ge hwf _ n (rowKey m) hk'
              (le_of_eq hmT.symm) htail
        · intro s hs
          exact absurd hs (List.not_mem_nil _)
      · -- the first row of table `T` lies further on: recurse past `m`
        have hrTm : rT ≠ m := fun he => hmT (by rw [← he, hrT_id])
        have hsel' : whereClause (rowKey m) rT = true :=
          sel_advance hwf hk hp hrT hrT_sel hrTm
        obtain ⟨l1', l2', hrun, hs1, hs2, hd1⟩ :=
          ih (rowKey m) hk' (by omega) hmT ⟨rT, hrT, hrT_t, hrT_id, hsel'⟩
        refine ⟨(if m.type = TABLE_ATTACHED_FILE ∧ k.id ≠ m.id ∧
            (some "snapshot" : Option String) = some "snapshot"
            then [Event.snapshot m.id] else []) ++ Event.dispatch m :: l1',
          l2', ?_, ?_, hs2, ?_⟩
        · rw [hrun]
          simp [List.append_assoc]
        · intro hmem2
          rcases List.mem_append.mp hmem2 with hpre | hrest
          · split at hpre
            · have heq := List.mem_singleton.mp hpre
              injection heq with heq
              exact hmT heq.symm
            · exact absurd hpre (List.not_mem_nil _)
          · rcases List.mem_cons.mp hrest with he | htail
            · exact Event.noConfusion he
            · exact hs1 htail
        · intro s hs
          rcases List.mem_append.mp hs with hpre | hrest
          · split at hpre
            · have heq := List.mem_singleton.mp hpre
              exact Event.noConfusion heq
            · exact absurd hpre (List.not_mem_nil _)
          · rcases List.mem_cons.mp hrest with he | htail
            · injection he with he
              subst he
              exact hmT
            · exact hd1 s htail

/-- Every emitted snapshot names a table that has a pending
`TABLE_ATTACHED_FILE` row, and snapshots are only emitted under the
`'snapshot'` strategy (no well-formedness needed). -/
theorem runLoop_snapshot_source (strat : Option String) (db : List Row) :
    ∀ (fuel : Nat) (k : MigrationKey) {T : String},
      Event.snapshot T ∈ runLoop strat db fuel k →
      strat = some "snapshot" ∧
        ∃ r ∈ db, r.status = INDEXED ∧ r.type = TABLE_ATTACHED_FILE ∧
          r.id = T := by
  intro fuel
  induction fuel with
  | zero => intro k T h; exact absurd h (List.not_mem_nil _)
  | succ n ih =>
    intro k T h
    rw [runLoop] at h
    split at h
    · exact absurd h (List.not_mem_nil _)
    · rename_i m hp
      rcases List.mem_append.mp h with hpre | hrest
      · split at hpre
        · rename_i hcond
          have heq := List.mem_singleton.mp hpre
          injection heq with heq
          have hmem := pickMin_mem hp
          rw [List.mem_filter] at hmem
          have hselP := (whereClause_iff _ _).mp hmem.2
          exact ⟨hcond.2.2, m, hmem.1, (whereClauseP_payload hselP).1,
            hcond.1, heq.symm⟩
        · exact absurd hpre (List.not_mem_nil _)
      · rcases List.mem_cons.mp hrest with he | htail
        · exact Event.noConfusion he
        · exact ih (rowKey m) htail

theorem migrateDispatch_chain' (strat : Option String) (db : List Row)
    (hwf : wfDb db) :
    List.Chain' (fun r s => keyLt (rowKey r) (rowKey s))
      (dispatches (migrateDispatch strat db)) := by
  have h : List.Chain keyLt sentinelKey
      ((dispatches (migrateDispatch strat db)).map rowKey) :=
    runLoop_chain hwf strat (db.length + 1) sentinelKey (Or.inl rfl)
  rw [← List.chain'_map rowKey]
  cases hL : (dispatches (migrateDispatch strat db)).map rowKey with
  | nil => exact trivial
  | cons x xs =>
    rw [hL] at h
    exact (List.chain_cons.mp h).2

/-! ## Example checkpoint databases used by witnesses -/

/-- A `FILE` row with `status = INDEXED`, as the indexer writes it under
`file_version_strategy='all'`. -/
def idxRow : Row :=
  { id := "syn1", type := FILE, version := some 1, row_id := none,
    col_id := none, parent_id := some "syn0", status := INDEXED,
    exception := none, from_storage_location_id := some 1,
    from_file_handle_id := some "101", to_file_handle_id := none }

/-- The same file-version row after a failed migration: `status = ERRORED`
with the exception text recorded. -/
def erroredRow : Row :=
  { id := "syn1", type := FILE, version := some 1, row_id := none,
    col_id := none, parent_id := some "syn0", status := ERRORED,
    exception := some "error text", from_storage_location_id := some 1,
    from_file_handle_id := some "101", to_file_handle_id := none }

/-- An indexed `TABLE_ATTACHED_FILE` row of table `i` at cell
`(rid, cid)`. -/
def tafRow (i : String) (rid cid : Int) : Row :=
  { id := i, type := TABLE_ATTACHED_FILE, version := some 1, row_id := some rid,
    col_id := some cid, parent_id := some "syn0", status := INDEXED,
    exception := none, from_storage_location_id := some 1,
    from_file_handle_id := some "102", to_file_handle_id := none }

/-- A checkpoint with one pending file version and two tables with pending
cells (`syn2` has two cells, `syn3` one). -/
def dbExample : List Row :=
  [idxRow, tafRow "syn2" 0 5, tafRow "syn2" 0 6, tafRow "syn3" 2 5]

/-! ## Claim C1 -/

/-- C1 is false on the code: the scheduler's cursor query filters on
`status = _MigrationStatus.INDEXED.value` only (line 428 binds
`_MigrationStatus.INDEXED.value`), so a row whose status is `ERRORED` is
never selected by a re-run — here a checkpoint holding exactly one
`ERRORED` file-version row produces an empty dispatch list, with or
without a table strategy. -/
theorem C1_counterexample :
    erroredRow.status = ERRORED ∧
      migrateDispatch none [erroredRow] = [] ∧
      migrateDispatch (some "snapshot") [erroredRow] = [] ∧
      Event.dispatch erroredRow ∉ migrateDispatch none [erroredRow] := by
  refine ⟨rfl, by decide, by decide, by decide⟩

/-- C1 (amended): re-running the migrate engine against the same checkpoint
file selects only rows whose status is `INDEXED`; `ERRORED` rows — like
`MIGRATED` and `ALREADY_MIGRATED` rows — are never re-executed.  (The spec's
claim that `ERRORED` rows are retried does not hold: only `INDEXED` is
matched by the scheduler query.) -/
theorem C1_rerun_selects_only_indexed (strat : Option String) (db : List Row)
    (fuel : Nat) (k : MigrationKey) (r : Row)
    (h : Event.dispatch r ∈ runLoop strat db fuel k) :
    r.status = INDEXED ∧ r.status ≠ MIGRATED ∧ r.status ≠ ALREADY_MIGRATED ∧
      r.status ≠ ERRORED := by
  have h' := (runLoop_dispatch_indexed strat db fuel k h).2.1
  refine ⟨h', ?_, ?_, ?_⟩ <;> rw [h'] <;> decide

theorem C1_witness :
    Event.dispatch idxRow ∈ runLoop none [idxRow] 2 sentinelKey ∧
      idxRow.status = INDEXED ∧ idxRow.status ≠ MIGRATED ∧
      idxRow.status ≠ ALREADY_MIGRATED ∧ idxRow.status ≠ ERRORED :=
  ⟨by decide, C1_rerun_selects_only_indexed none [idxRow] 2 sentinelKey idxRow
    (by decide)⟩

/-! ## Claim C2 -/

/-- C2: the composite order on `(id, type, row_id, col_id, version)` with
absent components minimal is a (strict) total order over checkpoint keys —
irreflexive, transitive, and total — and over any well-formed checkpoint the
sequence of rows dispatched within one scheduler run is strictly ascending
in that order; consequently all dispatched rows sharing an entity id are
contiguous in dispatch order. -/
theorem C2_dispatch_order (strat : Option String) (db : List Row)
    (hwf : wfDb db) :
    ((∀ a, ¬ keyLt a a) ∧
      (∀ a b c, keyLt a b → keyLt b c → keyLt a c) ∧
      (∀ a b, keyLt a b ∨ a = b ∨ keyLt b a)) ∧
    List.Chain' (fun r s => keyLt (rowKey r) (rowKey s))
      (dispatches (migrateDispatch strat db)) ∧
    (∀ (l1 l2 l3 l4 : List Row) (r s t : Row),
      dispatches (migrateDispatch strat db) =
        l1 ++ r :: l2 ++ s :: l3 ++ t :: l4 →
      r.id = t.id → s.id = r.id) := by
  have hchain := migrateDispatch_chain' strat db hwf
  refine ⟨⟨keyLt_irrefl, fun a b c => keyLt_trans, keyLt_total⟩, hchain, ?_⟩
  intro l1 l2 l3 l4 r s t hsplit hrt
  haveI : IsTrans Row (fun r s => keyLt (rowKey r) (rowKey s)) :=
    ⟨fun a b c hab hbc => keyLt_trans hab hbc⟩
  have hpw := List.chain'_iff_pairwise.mp hchain
  rw [hsplit] at hpw
  obtain ⟨hA, hB, hAB⟩ := List.pairwise_append.mp hpw
  have hst : keyLt (rowKey s) (rowKey t) :=
    hAB s (List.mem_append.mpr (Or.inr (List.mem_cons_self _ _)))
      t (List.mem_cons_self _ _)
  obtain ⟨hC, _, hCD⟩ := List.pairwise_append.mp hA
  have hrs : keyLt (rowKey r) (rowKey s) :=
    hCD r (List.mem_append.mpr (Or.inr (List.mem_cons_self _ _)))
      s (List.mem_cons_self _ _)
  have hrs_id : r.id ≤ s.id := keyLtP_id_le ((keyLt_iff_P _ _).mp hrs)
  have hst_id : s.id ≤ t.id := keyLtP_id_le ((keyLt_iff_P _ _).mp hst)
  exact le_antisymm (hrt ▸ hst_id) hrs_id

theorem C2_witness :
    wfDb dbExample ∧
      List.Chain' (fun r s => keyLt (rowKey r) (rowKey s))
        (dispatches (migrateDispatch (some "snapshot") dbExample)) :=
  ⟨by decide, (C2_dispatch_order (some "snapshot") dbExample (by decide)).2.1⟩

/-! ## Claim C3 -/

/-- C3: with `table_strategy = 'snapshot'`, for every distinct table id that
has at least one `TABLE_ATTACHED_FILE` row with status `INDEXED`, the
scheduler emits exactly one create-snapshot call for that id, before the
first migration task of any cell of that table is dispatched; every snapshot
call made names such a table; and no snapshot call is made under any other
strategy value. -/
theorem C3_snapshot_per_table (db : List Row) (hwf : wfDb db) :
    (∀ T, (∃ r ∈ db, r.status = INDEXED ∧ r.type = TABLE_ATTACHED_FILE ∧
        r.id = T) →
      ∃ l1 l2, migrateDispatch (some "snapshot") db =
          l1 ++ Event.snapshot T :: l2 ∧
        Event.snapshot T ∉ l1 ∧ Event.snapshot T ∉ l2 ∧
        ∀ s, Event.dispatch s ∈ l1 → s.id ≠ T) ∧
    (∀ T, Event.snapshot T ∈ migrateDispatch (some "snapshot") db →
      ∃ r ∈ db, r.status = INDEXED ∧ r.type = TABLE_ATTACHED_FILE ∧
        r.id = T) ∧
    (∀ strat T, strat ≠ some "snapshot" →
      Event.snapshot T ∉ migrateDispatch strat db) := by
  refine ⟨?_, ?_, ?_⟩
  · intro T hex
    obtain ⟨r, hr, hst, ht, hid⟩ := hex
    have hwr := hwf.1 r hr
    have hTne : sentinelKey.id ≠ T := by
      have h0 : "" < r.id := hwr.1
      rw [hid] at h0
      exact fun he => absurd (he ▸ h0) (lt_irrefl _)
    have hsel : whereClause sentinelKey r = true :=
      (whereClause_iff _ _).mpr
        (keyLt_sel hwf (Or.inl rfl) hr hst (Or.inr ht)
          (show keyLtP sentinelKey (rowKey r) from Or.inl hwr.1))
    exact runLoop_snapshot_found hwf (db.length + 1) sentinelKey (Or.inl rfl)
      (Nat.lt_succ_of_le (List.countP_le_length _)) hTne ⟨r, hr, ht, hid, hsel⟩
  · intro T h
    exact (runLoop_snapshot_source (some "snapshot") db (db.length + 1)
      sentinelKey h).2
  · intro strat T hne h
    exact hne (runLoop_snapshot_source strat db (db.length + 1)
      sentinelKey h).1

theorem C3_witness :
    wfDb dbExample ∧
      (∃ r ∈ dbExample, r.status = INDEXED ∧
        r.type = TABLE_ATTACHED_FILE ∧ r.id = "syn2") ∧
      (∃ l1 l2, migrateDispatch (some "snapshot") dbExample =
          l1 ++ Event.snapshot "syn2" :: l2 ∧
        Event.snapshot "syn2" ∉ l1 ∧ Event.snapshot "syn2" ∉ l2 ∧
        ∀ s, Event.dispatch s ∈ l1 → s.id ≠ "syn2") :=
  ⟨by decide, by decide,
    (C3_snapshot_per_table dbExample (by decide)).1 "syn2" (by decide)⟩

/-! ## Input validation in `migrate` (lines 350-360) -/

/-- The strategy validation at the top of `migrate` (lines 350-360),
transcribed check for check — including the misspelt `'noshapshot'` literal
in the tuple on line 359.  `Except.error` models `raise ValueError`. -/
def validateStrategies (file_version_strategy table_strategy : Option String) :
    Except String Unit :=
  if file_version_strategy = none ∧ table_strategy = none then
    .error "No value for either file_version_strategy or create_table_snapshot, no entities selected for migration"
  else if ¬(file_version_strategy = some "new" ∨ file_version_strategy = some "all" ∨
      file_version_strategy = some "latest" ∨ file_version_strategy = none) then
    .error "invalid value passed for file_version_strategy"
  else if ¬(table_strategy = some "snapshot" ∨ table_strategy = some "noshapshot" ∨
      table_strategy = none) then
    .error "invalid value passed for table_strategy"
  else
    .ok ()

/-! ## Claim C5 -/

/-- C5: the claim is right and the code is wrong.  `migrate`'s own docstring
documents `'nosnapshot'` as a valid `table_strategy`, but the validation
tuple on line 359 spells it `'noshapshot'`: passing the documented value
`'nosnapshot'` raises a `ValueError`, while the misspelling `'noshapshot'`
— a value outside the documented set — passes validation.  The spec (§9)
itself flags this as a source bug. -/
theorem C5_nosnapshot_validation :
    validateStrategies (some "new") (some "nosnapshot") =
      .error "invalid value passed for table_strategy" ∧
    validateStrategies none (some "nosnapshot") =
      .error "invalid value passed for table_strategy" ∧
    validateStrategies (some "new") (some "noshapshot") = .ok () ∧
    validateStrategies (some "new") (some "snapshot") = .ok () ∧
    validateStrategies (some "new") none = .ok () ∧
    validateStrategies none none =
      .error "No value for either file_version_strategy or create_table_snapshot, no entities selected for migration" := by
  refine ⟨rfl, rfl, rfl, rfl, rfl, rfl⟩

/-! ## SQLite primary-key semantics for the `migrations` table

The schema (`_ensure_schema`, lines 235-255) declares
`primary key (id, type, row_id, col_id, version)` on an ordinary rowid
table; every insert in this module is a plain `insert`, so a fully non-NULL
duplicate key raises `sqlite3.IntegrityError`, while keys containing NULL
components never conflict (SQLite treats NULLs as distinct in unique
constraints). -/

/-- Equality of two nullable key components where a NULL never matches. -/
def bothSomeEq : Option Int → Option Int → Bool
  | some x, some y => x == y
  | _, _ => false

/-- Primary-key conflict test between an existing row and a new row. -/
def pkConflict (a b : Row) : Bool :=
  a.id == b.id && a.type == b.type && bothSomeEq a.row_id b.row_id &&
    bothSomeEq a.col_id b.col_id && bothSomeEq a.version b.version

/-- One plain `insert into migrations` of one row, as executed (via
`cursor.execute`/`executemany`) by `_index_file_entity` (lines 595-608),
`_index_table_entity` (lines 637-651) and `_index_container` (lines
721-724): *not* `insert or ignore` — a primary-key conflict raises. -/
def sqliteInsert (db : List Row) (r : Row) : Except String (List Row) :=
  if db.any (fun s => pkConflict s r) then
    .error "UNIQUE constraint failed: migrations"
  else
    .ok (db ++ [r])

theorem bothSomeEq_none_right (x : Option Int) : bothSomeEq x none = false := by
  cases x <;> rfl

/-! ## The indexer: `_index_file_entity` (lines 544-610) and
`_index_table_entity` (lines 633-679) -/

/-- A sqlite statement parameter as supplied from Python. -/
inductive SqlValue
  | NULL
  | I (n : Int)
  | S (s : String)
deriving DecidableEq, Repr

def optS : Option String → SqlValue
  | none => .NULL
  | some s => .S s

/-- Data of a file entity as returned by `syn.get(entity_id,
downloadFile=False)`: `entity.versionNumber`, `entity.dataFileHandleId` and
`entity._file_handle['storageLocationId']`. -/
structure EntityInfo where
  versionNumber : Int
  dataFileHandleId : String
  storageLocationId : Int
deriving DecidableEq, Repr

/-- The parameter tuples `_index_file_entity` appends to `insert_values`
(lines 546-592), element for element in source order.  `'new'` (lines
554-562) builds a 7-tuple with a NULL version; `'all'` (lines 566-577) one
7-tuple per existing version; `'latest'` (lines 583-592) builds the tuple
that lists `entity.versionNumber` **and** `entity['versionNumber']` — 8
elements. -/
def indexFileEntityValues (latest : EntityInfo) (getVersion : Int → EntityInfo)
    (versions : List Int) (entityId : String) (parentId : Option String)
    (strategy : Option String) : List (List SqlValue) :=
  if strategy = some "new" then
    [[.S entityId, .I FILE, .NULL, optS parentId,
      .I latest.storageLocationId, .S latest.dataFileHandleId, .I INDEXED]]
  else if strategy = some "all" then
    versions.map fun v =>
      [.S entityId, .I FILE, .I v, optS parentId,
        .I (getVersion v).storageLocationId, .S (getVersion v).dataFileHandleId,
        .I INDEXED]
  else if strategy = some "latest" then
    [[.S entityId, .I FILE, .I latest.versionNumber, .I latest.versionNumber,
      optS parentId, .I latest.storageLocationId, .S latest.dataFileHandleId,
      .I INDEXED]]
  else []

def asOptInt : SqlValue → Except String (Option Int)
  | .NULL => .ok none
  | .I n => .ok (some n)
  | .S _ => .error "datatype mismatch"

def asOptStr : SqlValue → Except String (Option String)
  | .NULL => .ok none
  | .S s => .ok (some s)
  | .I _ => .error "datatype mismatch"

/-- Binding one parameter tuple against the 7-placeholder insert statement
of `_index_file_entity` (lines 595-608, columns `id, type, version,
parent_id, from_storage_location_id, from_file_handle_id, status`) and
executing the insert.  sqlite3 raises `ProgrammingError` when the number of
supplied parameters differs from the placeholder count. -/
def fileInsertStep (acc : List Row) (vals : List SqlValue) :
    Except String (List Row) :=
  if vals.length = 7 then
    match vals with
    | [.S i, .I t, version, parentv, .I loc, .S fh, .I st] => do
      let v ← asOptInt version
      let p ← asOptStr parentv
      sqliteInsert acc
        ⟨i, t, v, none, none, p, st, none, some loc, some fh, none⟩
    | _ => .error "datatype mismatch"
  else
    .error "Incorrect number of bindings supplied. The current statement uses 7."

/-- `_index_file_entity`: build the value tuples for the strategy and execute
the batched insert, returning the updated checkpoint and
`len(insert_values)`. -/
def indexFileEntity (db : List Row) (latest : EntityInfo)
    (getVersion : Int → EntityInfo) (versions : List Int) (entityId : String)
    (parentId : Option String) (strategy : Option String) :
    Except String (List Row × Nat) := do
  let values := indexFileEntityValues latest getVersion versions entityId
    parentId strategy
  let db' ← values.foldlM fileInsertStep db
  return (db', values.length)

/-- A table-attached file handle as fetched by `syn._getFileHandleDownload`. -/
structure FileHandleInfo where
  storageLocationId : Int
  id : String
deriving DecidableEq, Repr

/-- The parameter tuples `_index_table_entity` appends to `row_batch` (lines
656-668): one 9-tuple per `(row, file-handle column)` cell produced by
`_get_file_handle_rows`, in source order. -/
def indexTableEntityValues (entityId : String) (parentId : Option String)
    (rows : List (Int × Int × List (Int × FileHandleInfo))) :
    List (List SqlValue) :=
  (rows.map fun rvh =>
    rvh.2.2.map fun ch =>
      [.S entityId, .I TABLE_ATTACHED_FILE, optS parentId, .I rvh.1,
        .I ch.1, .I rvh.2.1, .I ch.2.storageLocationId, .S ch.2.id,
        .I INDEXED]).flatten

/-- Binding one parameter tuple against the 9-placeholder insert statement
of `_index_table_entity` (lines 637-650, columns `id, type, parent_id,
row_id, col_id, version, from_storage_location_id, from_file_handle_id,
status`) and executing the insert. -/
def tableInsertStep (acc : List Row) (vals : List SqlValue) :
    Except String (List Row) :=
  if vals.length = 9 then
    match vals with
    | [.S i, .I t, parentv, .I rid, .I cid, .I ver, .I loc, .S fh, .I st] => do
      let p ← asOptStr parentv
      sqliteInsert acc
        ⟨i, t, some ver, some rid, some cid, p, st, none, some loc, some fh,
          none⟩
    | _ => .error "datatype mismatch"
  else
    .error "Incorrect number of bindings supplied. The current statement uses 9."

/-- `_index_table_entity`: index every `(row, column)` cell of the table,
returning the updated checkpoint and the total row count. -/
def indexTableEntity (db : List Row) (entityId : String)
    (parentId : Option String)
    (rows : List (Int × Int × List (Int × FileHandleInfo))) :
    Except String (List Row × Nat) := do
  let values := indexTableEntityValues entityId parentId rows
  let db' ← values.foldlM tableInsertStep db
  return (db', values.length)

/-! ## Claim C4 -/

/-- C4: the claim is right and the code is wrong.  Under
`file_version_strategy='latest'` the tuple built on lines 583-592 repeats
the version number (`entity.versionNumber` and `entity['versionNumber']`),
yielding 8 parameters for the 7-placeholder insert statement of lines
595-606, so `cursor.executemany` raises `ProgrammingError` for every file
entity: no row is ever inserted under `'latest'`, contradicting the claim
that exactly one `INDEXED` row carrying the entity's current version is
inserted. -/
theorem C4_latest_binding_mismatch (db : List Row) (latest : EntityInfo)
    (getVersion : Int → EntityInfo) (versions : List Int) (entityId : String)
    (parentId : Option String) :
    (indexFileEntityValues latest getVersion versions entityId parentId
      (some "latest")).map List.length = [8] ∧
    indexFileEntity db latest getVersion versions entityId parentId
      (some "latest") =
      .error "Incorrect number of bindings supplied. The current statement uses 7." :=
  ⟨rfl, rfl⟩

/-! ## Claim C6 -/

/-- The concrete `_get_file_handle_rows` output indexing the same table cell
`(row 0, col 5, row version 1)` that `tafRow "syn2" 0 5` already records. -/
def tableRowsExample : List (Int × Int × List (Int × FileHandleInfo)) :=
  [(0, 1, [(5, ⟨1, "102"⟩)])]

/-- C6 is false on the code: the indexer's batch inserts are plain
`insert`s, not `insert or ignore`.  Re-indexing a table cell whose composite
primary key is already present (all key components non-NULL) raises an
`IntegrityError` instead of ignoring the row. -/
theorem C6_counterexample :
    indexTableEntity [tafRow "syn2" 0 5] "syn2" (some "syn0")
        tableRowsExample =
      .error "UNIQUE constraint failed: migrations" ∧
    sqliteInsert [tafRow "syn2" 0 5] (tafRow "syn2" 0 5) =
      .error "UNIQUE constraint failed: migrations" := by
  refine ⟨rfl, rfl⟩

/-- C6 (amended): the indexer's inserts are plain `insert`s.  Inserting a
row whose composite primary key already exists with every component
non-NULL raises a uniqueness error and the batch aborts; a row whose key
has any NULL component (e.g. every `FILE` row, whose `row_id`/`col_id` are
NULL) never conflicts — SQLite treats NULL key components as distinct — and
is inserted as an additional row, leaving existing rows unchanged.  (Safe
resumption instead relies on the `_check_indexed` guard and on
transactional rollback of uncommitted partial batches.) -/
theorem C6_plain_insert_semantics (db : List Row) (r : Row) :
    ((∃ s ∈ db, pkConflict s r = true) →
      sqliteInsert db r = .error "UNIQUE constraint failed: migrations") ∧
    ((r.row_id = none ∨ r.col_id = none ∨ r.version = none) →
      sqliteInsert db r = .ok (db ++ [r])) := by
  constructor
  · intro hex
    unfold sqliteInsert
    rw [if_pos]
    rw [List.any_eq_true]
    obtain ⟨s, hs, hc⟩ := hex
    exact ⟨s, hs, hc⟩
  · intro hnull
    unfold sqliteInsert
    rw [if_neg]
    intro hany
    rw [List.any_eq_true] at hany
    obtain ⟨s, _, hc⟩ := hany
    rcases hnull with h | h | h <;>
      simp [pkConflict, h, bothSomeEq_none_right] at hc

theorem C6_witness :
    (∃ s ∈ [tafRow "syn2" 0 5], pkConflict s (tafRow "syn2" 0 5) = true) ∧
    sqliteInsert [tafRow "syn2" 0 5] (tafRow "syn2" 0 5) =
      .error "UNIQUE constraint failed: migrations" ∧
    idxRow.row_id = none ∧
    sqliteInsert [idxRow] idxRow = .ok ([idxRow] ++ [idxRow]) :=
  ⟨⟨tafRow "syn2" 0 5, by decide, by decide⟩,
    (C6_plain_insert_semantics [tafRow "syn2" 0 5] (tafRow "syn2" 0 5)).1
      (by decide),
    by decide,
    (C6_plain_insert_semantics [idxRow] idxRow).2 (Or.inl (by decide))⟩

/-! ## Claim C8 -/

/-- A file entity whose payload already resides in storage location `99` —
the same id as the migration target used in the counterexample. -/
def entity99 : EntityInfo := ⟨1, "101", 99⟩

def getV99 : Int → EntityInfo := fun _ => entity99

/-- The row `_index_file_entity` writes for `entity99` under `'new'`. -/
def row99 : Row :=
  ⟨"syn1", FILE, none, none, none, some "syn0", INDEXED, none, some 99,
    some "101", none⟩

/-- C8 is false on the code: nothing in the module compares
`from_storage_location_id` with the target `storage_location_id` —
`_index_file_entity` is not even passed the target — and the
`ALREADY_MIGRATED` status value is never assigned anywhere.  Indexing an
entity whose payload already lives in the target location (`99` here, equal
to the row's `from_storage_location_id`) records it as ordinary `INDEXED`
work, and the scheduler dispatches it for a fresh copy. -/
theorem C8_counterexample :
    indexFileEntity [] entity99 getV99 [] "syn1" (some "syn0") (some "new") =
      .ok ([row99], 1) ∧
    row99.from_storage_location_id = some 99 ∧
    row99.status = INDEXED ∧
    row99.status ≠ ALREADY_MIGRATED ∧
    Event.dispatch row99 ∈ migrateDispatch none [row99] := by
  refine ⟨rfl, rfl, rfl, by decide, by decide⟩

/-- C8 (amended): the engine performs no already-migrated detection.  Every
parameter tuple `_index_file_entity` builds carries the literal status
`INDEXED` in its final position (never `ALREADY_MIGRATED`), for every
strategy and entity — in particular regardless of the entity's storage
location; and the scheduler dispatches every `INDEXED` payload row of a
well-formed checkpoint, regardless of its `from_storage_location_id` (the
cursor query does not mention that column). -/
theorem C8_no_already_migrated_check (latest : EntityInfo)
    (getVersion : Int → EntityInfo) (versions : List Int) (entityId : String)
    (parentId : Option String) (strategy : Option String) :
    (∀ t ∈ indexFileEntityValues latest getVersion versions entityId parentId
        strategy, t.getLast? = some (.I INDEXED)) ∧
    (∀ (db : List Row) (r : Row), wfDb db → r ∈ db → r.status = INDEXED →
      payload r → Event.dispatch r ∈ migrateDispatch none db) := by
  constructor
  · intro t ht
    unfold indexFileEntityValues at ht
    split at ht
    · rcases List.mem_singleton.mp ht with rfl
      rfl
    · split at ht
      · obtain ⟨v, _, rfl⟩ := List.mem_map.mp ht
        rfl
      · split at ht
        · rcases List.mem_singleton.mp ht with rfl
          rfl
        · cases ht
  · intro db r hwf hr hst hpay
    have hwr := hwf.1 r hr
    have hsel : whereClause sentinelKey r = true :=
      (whereClause_iff _ _).mpr
        (keyLt_sel hwf (Or.inl rfl) hr hst hpay
          (show keyLtP sentinelKey (rowKey r) from Or.inl hwr.1))
    exact runLoop_complete hwf none (db.length + 1) sentinelKey (Or.inl rfl)
      (Nat.lt_succ_of_le (List.countP_le_length _)) r hr hsel

theorem C8_witness :
    wfDb [row99] ∧ row99.status = INDEXED ∧ payload row99 ∧
    Event.dispatch row99 ∈ migrateDispatch none [row99] :=
  ⟨by decide, by decide, by decide,
    (C8_no_already_migrated_check entity99 getV99 [] "syn1" (some "syn0")
        (some "new")).2 [row99] row99 (by decide) (by decide) (by decide)
      (by decide)⟩

/-! ## `_wait_futures` (lines 258-308) -/

/-- The `_MigrationError` wrapper raised by `migration_task` (line 487):
it carries the failing row's key, and its `__cause__` is the original
exception (modelled by its text). -/
structure MigrationError where
  key : MigrationKey
  cause : String
deriving DecidableEq, Repr

/-- The outcome of one completed future as `_wait_futures` observes it:
either `(key, to_file_handle_id)` or a raised `_MigrationError`. -/
inductive FutureResult
  | ok (key : MigrationKey) (toFileHandleId : String)
  | raised (e : MigrationError)
deriving DecidableEq, Repr

/-- A write against the checkpoint: the parameterized
`update migrations set status/to_file_handle_id/exception where <key>`
statement (lines 283-302, the `where` clause matching the composite key with
`= ?` for present components and `is null` for absent ones), or
`conn.commit()` (line 303). -/
inductive DbAction
  | update (key : MigrationKey) (status : Int) (toFileHandleId : Option String)
      (exception : Option String)
  | commit
deriving DecidableEq, Repr

/-- `traceback.format_exception` applied to the cause (line 282), abstracted
as the cause's text. -/
def tbStr (cause : String) : String := cause

/-- Result of `_wait_futures`: the checkpoint actions performed in order,
the exception re-raised to the caller (if any), and the counts at exit. -/
structure WaitResult where
  actions : List DbAction
  raised : Option String
  migratedCount : Nat
  errorCount : Nat
deriving DecidableEq, Repr

/-- `_wait_futures` over the completed futures in iteration order (lines
264-307): a success updates the matching row to `MIGRATED` with the new
handle id; a failure takes `ex = migration_ex.__cause__` (line 277) and
updates the row identified by `migration_ex.key` to `ERRORED` with the
stringified traceback; each update is followed by `conn.commit()`; and on a
failure with `continue_on_error` false the cause — not the wrapper — is
re-raised (`raise ex from None`, line 306) immediately after the commit,
processing no further outcomes. -/
def waitFutures : List FutureResult → Bool → WaitResult
  | [], _ => ⟨[], none, 0, 0⟩
  | .ok key toId :: rest, continueOnError =>
    let r := waitFutures rest continueOnError
    ⟨.update key MIGRATED (some toId) none :: .commit :: r.actions,
      r.raised, r.migratedCount + 1, r.errorCount⟩
  | .raised e :: rest, continueOnError =>
    if continueOnError then
      let r := waitFutures rest continueOnError
      ⟨.update e.key ERRORED none (some (tbStr e.cause)) :: .commit ::
          r.actions,
        r.raised, r.migratedCount, r.errorCount + 1⟩
    else
      ⟨[.update e.key ERRORED none (some (tbStr e.cause)), .commit],
        some e.cause, 0, 1⟩

/-- The two checkpoint actions of one successfully processed outcome. -/
def okActions (f : FutureResult) : List DbAction :=
  match f with
  | .ok k t => [.update k MIGRATED (some t) none, .commit]
  | .raised e => [.update e.key ERRORED none (some (tbStr e.cause)), .commit]

/-! ## Claim C7 -/

/-- C7: when a migration task fails and `continue_on_error` is false, the
scheduler updates the failing row (identified by the wrapper's key) to
`ERRORED` with its exception text, commits that update, and only then
raises — the update and its commit are the final checkpoint actions before
the raise; and the exception surfaced is the wrapper's `__cause__` (the
original underlying exception), not the `_MigrationError` wrapper. -/
theorem C7_fail_commit_then_raise_cause (pre : List FutureResult)
    (e : MigrationError) (rest : List FutureResult)
    (hpre : ∀ f ∈ pre, ∃ k t, f = .ok k t) :
    (waitFutures (pre ++ .raised e :: rest) false).raised = some e.cause ∧
    (waitFutures (pre ++ .raised e :: rest) false).actions =
      pre.flatMap okActions ++
        [.update e.key ERRORED none (some (tbStr e.cause)), .commit] := by
  induction pre with
  | nil => exact ⟨rfl, rfl⟩
  | cons f fs ih =>
    obtain ⟨k, t, rfl⟩ := hpre f (List.mem_cons_self _ _)
    have ih' := ih fun g hg => hpre g (List.mem_cons_of_mem _ hg)
    refine ⟨?_, ?_⟩
    · simp only [List.cons_append, waitFutures]
      exact ih'.1
    · simp only [List.cons_append, waitFutures, List.flatMap_cons, okActions,
        List.append_eq]
      rw [ih'.2]
      simp

theorem C7_witness :
    (∀ f ∈ [FutureResult.ok (rowKey idxRow) "201"], ∃ k t, f = .ok k t) ∧
    (waitFutures
        ([FutureResult.ok (rowKey idxRow) "201"] ++
          .raised ⟨rowKey (tafRow "syn2" 0 5), "boom"⟩ ::
            [FutureResult.ok (rowKey (tafRow "syn3" 2 5)) "202"]) false).raised =
      some "boom" ∧
    (waitFutures
        ([FutureResult.ok (rowKey idxRow) "201"] ++
          .raised ⟨rowKey (tafRow "syn2" 0 5), "boom"⟩ ::
            [FutureResult.ok (rowKey (tafRow "syn3" 2 5)) "202"]) false).actions =
      [FutureResult.ok (rowKey idxRow) "201"].flatMap okActions ++
        [.update (rowKey (tafRow "syn2" 0 5)) ERRORED none
          (some (tbStr "boom")),
         .commit] :=
  ⟨fun f hf => by
      rcases List.mem_singleton.mp hf with rfl
      exact ⟨rowKey idxRow, "201", rfl⟩,
    (C7_fail_commit_then_raise_cause [.ok (rowKey idxRow) "201"]
        ⟨rowKey (tafRow "syn2" 0 5), "boom"⟩
        [.ok (rowKey (tafRow "syn3" 2 5)) "202"]
        (fun f hf => by
          rcases List.mem_singleton.mp hf with rfl
          exact ⟨rowKey idxRow, "201", rfl⟩))⟩

/-! ## Migration operations: `_migrate_file_version` (lines 800-827) and
`migration_task` (lines 479-487) -/

/-- The body of the `restPUT` on lines 813-816:
`{'oldFileHandleId': ..., 'newFileHandleId': ...}`. -/
structure FileHandleUpdateRequest where
  oldFileHandleId : String
  newFileHandleId : String
deriving DecidableEq, Repr

/-- Remote service calls issued by a migration operation, in order.  The
multipart copy carries the source file handle association
`(fileHandleId, associateObjectId, associateObjectType)` and the target
storage location; `storeEntity` is `syn.store(entity)` after setting
`entity.dataFileHandleId` (lines 794-795); `storePartialRowset` is
`syn.store(partial_rowset)` for the single-cell partial row set built on
lines 843-846 (`row_mapping = \x7bstr(key.col_id): to_file_handle_id\x7d`,
row `key.row_id`). -/
inductive SvcCall
  | multipartCopy (fileHandleId : String) (associateObjectId : String)
      (associateObjectType : String) (storageLocationId : Int)
  | restPUT (uri : String) (body : FileHandleUpdateRequest)
  | storeEntity (entityId : String) (dataFileHandleId : String)
  | storePartialRowset (tableId : String) (colKey : String)
      (rowId : Option Int) (toFileHandleId : String)
deriving DecidableEq, Repr

/-- Rendering of `key.version` by `str.format` in the URI template
`"/entity/{id}/version/{versionNumber}/filehandle"`. -/
def versionStr (v : Option Int) : String :=
  match v with
  | some n => toString n
  | none => "None"

/-- `_migrate_file_version` (lines 800-827): multipart-copy the source file
handle (associated to the file entity `key.id`) into the target storage
location, then `restPUT` the file-handle update for version `key.version`,
returning the new file handle id.  `copyResult`/`putResult` are oracles for
what the two remote operations return or raise; the first component of the
result is the trace of service calls issued, in order. -/
def migrateFileVersion (copyResult : Except String String)
    (putResult : Except String Unit) (key : MigrationKey)
    (fromFileHandleId : String) (storageLocationId : Int) :
    List SvcCall × Except String String :=
  match copyResult with
  | .error e =>
    ([.multipartCopy fromFileHandleId key.id "FileEntity" storageLocationId],
      .error e)
  | .ok newId =>
    match putResult with
    | .error e =>
      ([.multipartCopy fromFileHandleId key.id "FileEntity" storageLocationId,
        .restPUT ("/entity/" ++ key.id ++ "/version/" ++
            versionStr key.version ++ "/filehandle")
          ⟨fromFileHandleId, newId⟩],
        .error e)
    | .ok _ =>
      ([.multipartCopy fromFileHandleId key.id "FileEntity" storageLocationId,
        .restPUT ("/entity/" ++ key.id ++ "/version/" ++
            versionStr key.version ++ "/filehandle")
          ⟨fromFileHandleId, newId⟩],
        .ok newId)

/-- `migration_task` (lines 479-487): returns `(key, to_file_handle_id)` on
success; on any exception raises `_MigrationError(key)` with the original
exception as its cause (`raise _MigrationError(key) from ex`). -/
def migrationTask (run : List SvcCall × Except String String)
    (key : MigrationKey) : Except MigrationError (MigrationKey × String) :=
  match run.2 with
  | .ok newId => .ok (key, newId)
  | .error e => .error ⟨key, e⟩

/-- In isolation, `_migrate_file_version` on a key with non-null version `N`
copies first, then PUTs the file-handle update to
`/entity/{id}/version/{N}/filehandle`, returning the new handle id; and
`migration_task` wraps any failure in `_MigrationError(key)` with the
original exception as its cause. -/
theorem migrateFileVersion_ok (key : MigrationKey) (N : Int)
    (hv : key.version = some N) (old newId : String) (loc : Int) :
    migrateFileVersion (.ok newId) (.ok ()) key old loc =
      ([.multipartCopy old key.id "FileEntity" loc,
        .restPUT ("/entity/" ++ key.id ++ "/version/" ++ toString N ++
            "/filehandle")
          ⟨old, newId⟩],
        .ok newId) ∧
    migrationTask (migrateFileVersion (.ok newId) (.ok ()) key old loc) key =
      .ok (key, newId) ∧
    (∀ e, migrationTask (migrateFileVersion (.error e) (.ok ()) key old loc)
      key = .error ⟨key, e⟩) ∧
    (∀ e, migrationTask (migrateFileVersion (.ok newId) (.error e) key old
      loc) key = .error ⟨key, e⟩) := by
  refine ⟨?_, rfl, fun e => rfl, fun e => rfl⟩
  simp only [migrateFileVersion, hv, versionStr]

theorem migrateFileVersion_ok_example :
    (rowKey (tafRow "syn2" 0 5)).version = some 1 ∧
    migrateFileVersion (.ok "201") (.ok ()) (rowKey (tafRow "syn2" 0 5))
        "101" 99 =
      ([.multipartCopy "101" "syn2" "FileEntity" 99,
        .restPUT "/entity/syn2/version/1/filehandle" ⟨"101", "201"⟩],
        .ok "201") := by
  refine ⟨rfl, ?_⟩
  have h := (migrateFileVersion_ok (rowKey (tafRow "syn2" 0 5)) 1 rfl
    "101" "201" 99).1
  exact h

/-! ## Late binding of `migration_fn` (lines 449-490)

`migration_task` (lines 479-487) does not receive the operation to execute
as an argument: its body reads the enclosing function's local variable
`migration_fn` (line 484) when the task runs on a worker thread, while the
scheduler loop reassigns that same variable for every subsequent dispatched
row (lines 465, 468, 474).  The submitted task captures `key` and
`from_file_handle_id` by value (they are passed to `executor.submit`,
line 489) but the operation by reference.  The scheduler only waits for
outstanding futures once `len(futures) >= max_concurrent_file_copies`
(lines 399-406), so with a concurrency bound of at least 2 it can dispatch
the next row — reassigning `migration_fn` — before an already-submitted
task starts. -/

/-- The three operations assignable to `migration_fn` (lines 465-474). -/
inductive MigrationFn
  | createNewFileVersion
  | migrateFileVersionOp
  | migrateTableAttachedFile
deriving DecidableEq, Repr

/-- The assignment lines 463-477 perform for a dispatched key (`none` is
the `ValueError` branch for an unexpected type). -/
def migrationFnFor (key : MigrationKey) : Option MigrationFn :=
  if key.type = some FILE then
    if key.version = none then some .createNewFileVersion
    else some .migrateFileVersionOp
  else if key.type = some TABLE_ATTACHED_FILE then
    some .migrateTableAttachedFile
  else none

/-- The success-path service-call trace of each operation:
`_create_new_file_version` (lines 779-797) copies the handle into the
target location and stores the entity with the new data file handle;
`_migrate_file_version` (lines 800-827) copies and PUTs the file-handle
update for `key.version`; `_migrate_table_attached_file` (lines 830-848)
copies the handle associated to the *table* entity and stores a partial
rowset updating the cell `(key.row_id, str(key.col_id))`.  `newId` is the
oracle for what `multipart_copy` returns. -/
def execFn (fn : MigrationFn) (key : MigrationKey)
    (fromFileHandleId : String) (storageLocationId : Int) (newId : String) :
    List SvcCall :=
  match fn with
  | .createNewFileVersion =>
    [.multipartCopy fromFileHandleId key.id "FileEntity" storageLocationId,
     .storeEntity key.id newId]
  | .migrateFileVersionOp =>
    [.multipartCopy fromFileHandleId key.id "FileEntity" storageLocationId,
     .restPUT ("/entity/" ++ key.id ++ "/version/" ++
         versionStr key.version ++ "/filehandle")
       ⟨fromFileHandleId, newId⟩]
  | .migrateTableAttachedFile =>
    [.multipartCopy fromFileHandleId key.id "TableEntity" storageLocationId,
     .storePartialRowset key.id (versionStr key.col_id) key.row_id newId]

/-- One interleaving step: the scheduler thread submits the next pending
row, or a worker thread runs a submitted task. -/
inductive ThreadAct
  | submit
  | runTask (i : Nat)
deriving DecidableEq, Repr

/-- Shared state of the scheduler loop and the worker pool: rows not yet
dispatched (with their `from_file_handle_id`), the current value of the
shared `migration_fn` variable, the submitted tasks with their by-value
arguments, the indices of tasks that have run, and each run task's
executed service calls. -/
structure LoopState where
  pending : List (MigrationKey × String)
  cell : Option MigrationFn
  tasks : List (MigrationKey × String)
  ran : List Nat
  outputs : List (MigrationKey × List SvcCall)
deriving DecidableEq, Repr

/-- `submit` performs lines 463-489 for the next row: assign
`migration_fn`, then submit the task with `key` and `from_file_handle_id`
captured by value.  `runTask i` executes task `i` (line 484): the operation
run is whatever `migration_fn` holds *now*, not what it held at submission.
-/
def lateBindStep (storageLocationId : Int) (newId : String) (st : LoopState) :
    ThreadAct → LoopState
  | .submit =>
    match st.pending with
    | [] => st
    | (k, f) :: rest =>
      match migrationFnFor k with
      | none => st
      | some fn =>
        { st with
          pending := rest,
          cell := some fn,
          tasks := st.tasks ++ [(k, f)] }
  | .runTask i =>
    if i ∈ st.ran then st
    else
      match st.tasks[i]?, st.cell with
      | some (k, f), some fn =>
        { st with
          ran := st.ran ++ [i],
          outputs := st.outputs ++
            [(k, execFn fn k f storageLocationId newId)] }
      | _, _ => st

def runSched (storageLocationId : Int) (newId : String) (st : LoopState) :
    List ThreadAct → LoopState
  | [] => st
  | a :: rest =>
    runSched storageLocationId newId (lateBindStep storageLocationId newId st a)
      rest

def initState (rows : List (MigrationKey × String)) : LoopState :=
  ⟨rows, none, [], [], []⟩

/-- A schedule the program can exhibit under concurrency bound `maxConc`:
tasks run only after submission and at most once, and the scheduler
submits only while fewer than `maxConc` submitted tasks are outstanding
(lines 399-406 wait otherwise). -/
def schedOk (maxConc : Nat) : List ThreadAct → Nat → List Nat → Bool
  | [], _, _ => true
  | .submit :: rest, nSub, ran =>
    decide (nSub - ran.length < maxConc) && schedOk maxConc rest (nSub + 1) ran
  | .runTask i :: rest, nSub, ran =>
    decide (i < nSub) && !(ran.contains i) &&
      schedOk maxConc rest nSub (ran ++ [i])

def schedValid (maxConc : Nat) (sched : List ThreadAct) : Bool :=
  schedOk maxConc sched 0 []

/-- Two consecutively dispatched rows: the `FILE` row `syn1` at version 1,
then the table-attached-file cell of `syn2`. -/
def raceRows : List (MigrationKey × String) :=
  [(rowKey idxRow, "101"), (rowKey (tafRow "syn2" 0 5), "102")]

/-- Submit both rows, then run both tasks. -/
def raceSched : List ThreadAct :=
  [.submit, .submit, .runTask 0, .runTask 1]

/-! ## Claim C9 -/

/-- C9 fails on the code through a late-binding race: under this schedule —
feasible with `max_concurrent_file_copies = 2` — the scheduler dispatches
the table-attached-file row of `syn2`, reassigning the shared
`migration_fn` variable, before the worker starts the already-submitted
task for the `FILE` row `syn1` (version 1, which lines 463-468 map to
`_migrate_file_version`).  That task then executes
`_migrate_table_attached_file` on the `FILE` key: its multipart copy is
associated to a `TableEntity` and no REST PUT to
`/entity/syn1/version/1/filehandle` is ever issued, diverging from the
trace `_migrate_file_version` would have produced. -/
theorem C9_late_binding_race :
    schedValid 2 raceSched = true ∧
    migrationFnFor (rowKey idxRow) = some .migrateFileVersionOp ∧
    (rowKey idxRow).version = some 1 ∧
    (runSched 99 "201" (initState raceRows) raceSched).outputs =
      [(rowKey idxRow,
         execFn .migrateTableAttachedFile (rowKey idxRow) "101" 99 "201"),
       (rowKey (tafRow "syn2" 0 5),
         execFn .migrateTableAttachedFile (rowKey (tafRow "syn2" 0 5))
           "102" 99 "201")] ∧
    execFn .migrateTableAttachedFile (rowKey idxRow) "101" 99 "201" ≠
      execFn .migrateFileVersionOp (rowKey idxRow) "101" 99 "201" := by
  refine ⟨rfl, rfl, rfl, by decide, by decide⟩

/-! ## `MigrationResult.get_migrations` (lines 92-172) -/

/-- A Python value held in `row_dict`. -/
inductive PyVal
  | i (n : Int)
  | s (v : String)
deriving DecidableEq, Repr

/-- Decimal string parsing as Python's `int(text)` performs it for the
values at hand (an optional sign followed by decimal digits; non-numeric
text raises `ValueError`, modelled by `none`). -/
def digitsToNat : List Char → Option Nat
  | [] => none
  | cs =>
    cs.foldl
      (fun acc c =>
        match acc with
        | none => none
        | some n => if c.isDigit then some (n * 10 + (c.toNat - 48)) else none)
      (some 0)

def pyParseInt (s : String) : Option Int :=
  match s.toList with
  | '-' :: rest => (digitsToNat rest).map fun n => -(n : Int)
  | cs => (digitsToNat cs).map fun n => (n : Int)

/-- `int(int_val)` on lines 153-155: an integer passes through, text is
parsed. -/
def pyInt : PyVal → Except String PyVal
  | .i n => .ok (.i n)
  | .s str =>
    match pyParseInt str with
    | some m => .ok (.i m)
    | none => .error "invalid literal for int()"

/-- Dict lookup on the ordered `row_dict`. -/
def lookupRD (d : List (String × PyVal)) (k : String) : Option PyVal :=
  (d.find? fun p => p.1 == k).map fun p => p.2

/-- In-place value replacement, preserving insertion order. -/
def setRD (d : List (String × PyVal)) (k : String) (v : PyVal) :
    List (String × PyVal) :=
  d.map fun p => if p.1 == k then (k, v) else p

/-- `row_dict.pop('col_id', None)`, line 157 (the removal part). -/
def popRD (d : List (String × PyVal)) (k : String) : List (String × PyVal) :=
  d.filter fun p => p.1 != k

/-- The `row_dict` comprehension of lines 139-142: one entry per selected
column in `cursor.description` order, skipping the sqlite-internal `rowid`
and every column whose value is NULL (`if row[i] is not None`). -/
def rowDict0 (r : Row) : List (String × PyVal) :=
  ([("id", some (.s r.id)),
    ("type", some (.i r.type)),
    ("version", r.version.map .i),
    ("row_id", r.row_id.map .i),
    ("col_id", r.col_id.map .i),
    ("from_storage_location_id", r.from_storage_location_id.map .i),
    ("from_file_handle_id", r.from_file_handle_id.map .s),
    ("to_file_handle_id", r.to_file_handle_id.map .s),
    ("status", some (.i r.status)),
    ("exception", r.exception.map .s)] :
      List (String × Option PyVal)).filterMap
    fun p => p.2.map fun v => (p.1, v)

/-- `row_dict['type'] = 'file' if ... else 'table'` (line 144). -/
def typedDict (r : Row) : List (String × PyVal) :=
  setRD (rowDict0 r) "type" (.s (if r.type = FILE then "file" else "table"))

/-- The five fields converted with `int(...)` when present (lines
146-152). -/
def intFields : List String :=
  ["version", "row_id", "from_storage_location_id", "from_file_handle_id",
    "to_file_handle_id"]

/-- One iteration of the conversion loop (lines 146-155):
`row_dict.get(int_arg)`; if not `None`, replace by `int(...)`. -/
def convertIntField (d : List (String × PyVal)) (f : String) :
    Except String (List (String × PyVal)) :=
  match lookupRD d f with
  | none => .ok d
  | some v =>
    match pyInt v with
    | .ok v' => .ok (setRD d f v')
    | .error e => .error e

def foldConvert : List String → List (String × PyVal) →
    Except String (List (String × PyVal))
  | [], d => .ok d
  | f :: fs, d =>
    match convertIntField d f with
    | .ok d' => foldConvert fs d'
    | .error e => .error e

/-- Lines 157-164: pop `col_id`; when it was present, resolve the column
name through the (cached) `/column/{id}` lookup — the oracle `colName` —
and append `col_name` (a fresh dict key, hence at the end in insertion
order). -/
def withColName (colName : Int → String) (d : List (String × PyVal)) :
    List (String × PyVal) :=
  match lookupRD d "col_id" with
  | some (.i c) => popRD d "col_id" ++ [("col_name", .s (colName c))]
  | _ => popRD d "col_id"

/-- Line 166: `row_dict['status'] = _MigrationStatus(row_dict['status']).name`
(a `ValueError` if the stored integer is outside the enum). -/
def withStatusName (d : List (String × PyVal)) :
    Except String (List (String × PyVal)) :=
  match lookupRD d "status" with
  | some (.i st) =>
    match statusName st with
    | some nm => .ok (setRD d "status" (.s nm))
    | none => .error "ValueError"
  | _ => .error "KeyError"

/-- One record yielded by `get_migrations` for the payload row `r` (lines
139-168), assembled by the steps above in source order. -/
def migrationRecord (colName : Int → String) (r : Row) :
    Except String (List (String × PyVal)) :=
  match foldConvert intFields (typedDict r) with
  | .error e => .error e
  | .ok d2 => withStatusName (withColName colName d2)

/-- Lookup of one field in the record produced for `r`. -/
def recLookup (colName : Int → String) (r : Row) (f : String) :
    Except String (Option PyVal) :=
  (migrationRecord colName r).map fun d => lookupRD d f

/-! ### Lookup lemmas for the dict operations -/

theorem lookupRD_cons_true {k' : String} {v : PyVal} {d : List (String × PyVal)}
    {k : String} (h : (k' == k) = true) :
    lookupRD ((k', v) :: d) k = some v := by
  simp [lookupRD, List.find?, h]

theorem lookupRD_cons_false {k' : String} {v : PyVal} {d : List (String × PyVal)}
    {k : String} (h : (k' == k) = false) :
    lookupRD ((k', v) :: d) k = lookupRD d k := by
  simp [lookupRD, List.find?, h]

theorem lookupRD_setRD_ne (d : List (String × PyVal)) (k k' : String)
    (v : PyVal) (hne : (k == k') = false) :
    lookupRD (setRD d k v) k' = lookupRD d k' := by
  induction d with
  | nil => rfl
  | cons p rest ih =>
    obtain ⟨a, b⟩ := p
    show lookupRD ((if a == k then (k, v) else (a, b)) :: setRD rest k v) k' = _
    by_cases ha : (a == k) = true
    · have ha' : a = k := by simpa using ha
      subst ha'
      rw [if_pos (show (a == a) = true by simp), lookupRD_cons_false hne,
        lookupRD_cons_false hne]
      exact ih
    · rw [if_neg ha]
      by_cases hak : (a == k') = true
      · rw [lookupRD_cons_true hak, lookupRD_cons_true hak]
      · rw [lookupRD_cons_false (Bool.eq_false_iff.mpr hak),
          lookupRD_cons_false (Bool.eq_false_iff.mpr hak)]
        exact ih

theorem lookupRD_setRD_self (d : List (String × PyVal)) (k : String)
    (v : PyVal) :
    lookupRD (setRD d k v) k = (lookupRD d k).map fun _ => v := by
  induction d with
  | nil => rfl
  | cons p rest ih =>
    obtain ⟨a, b⟩ := p
    show lookupRD ((if a == k then (k, v) else (a, b)) :: setRD rest k v) k = _
    by_cases ha : (a == k) = true
    · rw [if_pos ha, lookupRD_cons_true (show (k == k) = true by simp),
        lookupRD_cons_true ha]
      rfl
    · have ha' := Bool.eq_false_iff.mpr ha
      rw [if_neg ha, lookupRD_cons_false ha', lookupRD_cons_false ha']
      exact ih

theorem lookupRD_popRD_ne (d : List (String × PyVal)) (k k' : String)
    (hne : (k == k') = false) :
    lookupRD (popRD d k) k' = lookupRD d k' := by
  induction d with
  | nil => rfl
  | cons p rest ih =>
    obtain ⟨a, b⟩ := p
    show lookupRD (List.filter _ ((a, b) :: rest)) k' = _
    rw [List.filter_cons]
    by_cases ha : (a == k) = true
    · have ha' : a = k := by simpa using ha
      subst ha'
      rw [if_neg (show ¬((a != a) = true) by simp), lookupRD_cons_false hne]
      exact ih
    · rw [if_pos (show (a != k) = true by simp [bne, ha])]
      by_cases hak : (a == k') = true
      · rw [lookupRD_cons_true hak, lookupRD_cons_true hak]
      · rw [lookupRD_cons_false (Bool.eq_false_iff.mpr hak),
          lookupRD_cons_false (Bool.eq_false_iff.mpr hak)]
        exact ih

theorem lookupRD_popRD_self (d : List (String × PyVal)) (k : String) :
    lookupRD (popRD d k) k = none := by
  induction d with
  | nil => rfl
  | cons p rest ih =>
    obtain ⟨a, b⟩ := p
    show lookupRD (List.filter _ ((a, b) :: rest)) k = _
    rw [List.filter_cons]
    by_cases ha : (a == k) = true
    · have ha' : a = k := by simpa using ha
      subst ha'
      rw [if_neg (show ¬((a != a) = true) by simp)]
      exact ih
    · rw [if_pos (show (a != k) = true by simp [bne, ha]),
        lookupRD_cons_false (Bool.eq_false_iff.mpr ha)]
      exact ih

theorem lookupRD_append_right_none (d e : List (String × PyVal)) (k : String)
    (h : lookupRD e k = none) :
    lookupRD (d ++ e) k = lookupRD d k := by
  induction d with
  | nil => simpa using h
  | cons p rest ih =>
    obtain ⟨a, b⟩ := p
    rw [List.cons_append]
    by_cases ha : (a == k) = true
    · rw [lookupRD_cons_true ha, lookupRD_cons_true ha]
    · rw [lookupRD_cons_false (Bool.eq_false_iff.mpr ha),
        lookupRD_cons_false (Bool.eq_false_iff.mpr ha)]
      exact ih

/-- Reference reading of the `row_dict` comprehension: first entry with the
given key whose value is present. -/
def assocSpec : List (String × Option PyVal) → String → Option PyVal
  | [], _ => none
  | (k', ov) :: rest, k =>
    if k' == k then
      match ov with
      | some v => some v
      | none => assocSpec rest k
    else assocSpec rest k

theorem lookupRD_build (base : List (String × Option PyVal)) (k : String) :
    lookupRD (base.filterMap fun p => p.2.map fun v => (p.1, v)) k =
      assocSpec base k := by
  induction base with
  | nil => rfl
  | cons p rest ih =>
    obtain ⟨k', ov⟩ := p
    cases ov with
    | none =>
      rw [List.filterMap_cons]
      show lookupRD (rest.filterMap _) k = assocSpec ((k', none) :: rest) k
      rw [ih]
      show _ = if k' == k then assocSpec rest k else assocSpec rest k
      split <;> rfl
    | some v =>
      rw [List.filterMap_cons]
      show lookupRD ((k', v) :: rest.filterMap _) k =
        assocSpec ((k', some v) :: rest) k
      by_cases hk : (k' == k) = true
      · rw [lookupRD_cons_true hk]
        show _ = if k' == k then some v else assocSpec rest k
        rw [if_pos hk]
      · rw [lookupRD_cons_false (Bool.eq_false_iff.mpr hk), ih]
        show _ = if k' == k then some v else assocSpec rest k
        rw [if_neg hk]

theorem rd0_version (r : Row) :
    lookupRD (rowDict0 r) "version" = r.version.map .i := by
  rw [rowDict0, lookupRD_build]
  cases r.version <;> rfl

theorem rd0_row_id (r : Row) :
    lookupRD (rowDict0 r) "row_id" = r.row_id.map .i := by
  rw [rowDict0, lookupRD_build]
  cases r.version <;> cases r.row_id <;> rfl

theorem rd0_col_id (r : Row) :
    lookupRD (rowDict0 r) "col_id" = r.col_id.map .i := by
  rw [rowDict0, lookupRD_build]
  cases r.version <;> cases r.row_id <;> cases r.col_id <;> rfl

theorem rd0_fsl (r : Row) :
    lookupRD (rowDict0 r) "from_storage_location_id" =
      r.from_storage_location_id.map .i := by
  rw [rowDict0, lookupRD_build]
  cases r.version <;> cases r.row_id <;> cases r.col_id <;>
    cases r.from_storage_location_id <;> rfl

theorem rd0_ffh (r : Row) :
    lookupRD (rowDict0 r) "from_file_handle_id" =
      r.from_file_handle_id.map .s := by
  rw [rowDict0, lookupRD_build]
  cases r.version <;> cases r.row_id <;> cases r.col_id <;>
    cases r.from_storage_location_id <;> cases r.from_file_handle_id <;> rfl

theorem rd0_tfh (r : Row) :
    lookupRD (rowDict0 r) "to_file_handle_id" =
      r.to_file_handle_id.map .s := by
  rw [rowDict0, lookupRD_build]
  cases r.version <;> cases r.row_id <;> cases r.col_id <;>
    cases r.from_storage_location_id <;> cases r.from_file_handle_id <;>
    cases r.to_file_handle_id <;> rfl

theorem rd0_status (r : Row) :
    lookupRD (rowDict0 r) "status" = some (.i r.status) := by
  rw [rowDict0, lookupRD_build]
  cases r.version <;> cases r.row_id <;> cases r.col_id <;>
    cases r.from_storage_location_id <;> cases r.from_file_handle_id <;>
    cases r.to_file_handle_id <;> rfl

theorem rd0_exception (r : Row) :
    lookupRD (rowDict0 r) "exception" = r.exception.map .s := by
  rw [rowDict0, lookupRD_build]
  cases r.version <;> cases r.row_id <;> cases r.col_id <;>
    cases r.from_storage_location_id <;> cases r.from_file_handle_id <;>
    cases r.to_file_handle_id <;> cases r.exception <;> rfl

theorem convertIntField_ok (d : List (String × PyVal)) (f : String)
    (h : ∀ v, lookupRD d f = some v → ∃ v', pyInt v = .ok v') :
    ∃ d', convertIntField d f = .ok d' ∧
      (∀ k, (f == k) = false → lookupRD d' k = lookupRD d k) ∧
      (lookupRD d f = none → lookupRD d' f = none) ∧
      (∀ v v', lookupRD d f = some v → pyInt v = .ok v' →
        lookupRD d' f = some v') := by
  cases hl : lookupRD d f with
  | none =>
    refine ⟨d, ?_, fun k _ => rfl, fun _ => hl, fun v v' hv _ => by cases hv⟩
    unfold convertIntField
    rw [hl]
  | some v =>
    obtain ⟨v', hv'⟩ := h v hl
    refine ⟨setRD d f v', ?_, ?_, ?_, ?_⟩
    · unfold convertIntField
      simp only [hl, hv']
    · intro k hk
      exact lookupRD_setRD_ne _ _ _ _ hk
    · intro h0
      cases h0
    · intro w w' hw hw'
      injection hw with hw
      subst hw
      rw [hv'] at hw'
      injection hw' with hw'
      subst hw'
      rw [lookupRD_setRD_self, hl]
      rfl

theorem withColName_of_none {d : List (String × PyVal)}
    (colName : Int → String) (h : lookupRD d "col_id" = none) :
    withColName colName d = popRD d "col_id" := by
  unfold withColName
  simp only [h]

theorem withColName_of_some {d : List (String × PyVal)} {c : Int}
    (colName : Int → String) (h : lookupRD d "col_id" = some (.i c)) :
    withColName colName d =
      popRD d "col_id" ++ [("col_name", .s (colName c))] := by
  unfold withColName
  simp only [h]

theorem withStatusName_ok {d : List (String × PyVal)} {st : Int} {nm : String}
    (h : lookupRD d "status" = some (.i st)) (hn : statusName st = some nm) :
    withStatusName d = .ok (setRD d "status" (.s nm)) := by
  unfold withStatusName
  simp only [h, hn]

theorem pyInt_int (n : Int) : pyInt (.i n) = .ok (.i n) := rfl

theorem pyInt_str {s : String} {n : Int} (h : pyParseInt s = some n) :
    pyInt (.s s) = .ok (.i n) := by
  simp only [pyInt, h]

/-! ## Claim C10 -/

/-- C10: for every payload row with a valid status whose stored file-handle
texts are numeric, `get_migrations` yields a record that omits every field
whose stored value is NULL (the lookup finds no entry at all), while
`version`, `row_id`, `from_storage_location_id`, `from_file_handle_id` and
`to_file_handle_id`, when present, are returned as integers — the handle
ids passing through `int(...)` even though they are stored as text columns;
`exception` is likewise omitted when NULL, and `col_id` is always popped in
favour of `col_name`. -/
theorem C10_record_fields (colName : Int → String) (r : Row)
    (hty : r.type = FILE ∨ r.type = TABLE_ATTACHED_FILE)
    (hst : statusName r.status ≠ none)
    (hfrom : ∀ s, r.from_file_handle_id = some s → ∃ n, pyParseInt s = some n)
    (hto : ∀ s, r.to_file_handle_id = some s → ∃ n, pyParseInt s = some n) :
    (migrationRecord colName r).isOk = true ∧
    (r.version = none → recLookup colName r "version" = .ok none) ∧
    (∀ v, r.version = some v → recLookup colName r "version" =
      .ok (some (.i v))) ∧
    (r.row_id = none → recLookup colName r "row_id" = .ok none) ∧
    (∀ v, r.row_id = some v → recLookup colName r "row_id" =
      .ok (some (.i v))) ∧
    (r.from_storage_location_id = none →
      recLookup colName r "from_storage_location_id" = .ok none) ∧
    (∀ v, r.from_storage_location_id = some v →
      recLookup colName r "from_storage_location_id" = .ok (some (.i v))) ∧
    (r.from_file_handle_id = none →
      recLookup colName r "from_file_handle_id" = .ok none) ∧
    (∀ s n, r.from_file_handle_id = some s → pyParseInt s = some n →
      recLookup colName r "from_file_handle_id" = .ok (some (.i n))) ∧
    (r.to_file_handle_id = none →
      recLookup colName r "to_file_handle_id" = .ok none) ∧
    (∀ s n, r.to_file_handle_id = some s → pyParseInt s = some n →
      recLookup colName r "to_file_handle_id" = .ok (some (.i n))) ∧
    (r.exception = none → recLookup colName r "exception" = .ok none) ∧
    recLookup colName r "col_id" = .ok none := by
  obtain ⟨nm, hnm⟩ := Option.ne_none_iff_exists'.mp hst
  have hd1 : ∀ k, ("type" == k) = false →
      lookupRD (typedDict r) k = lookupRD (rowDict0 r) k :=
    fun k hk => lookupRD_setRD_ne _ _ _ _ hk
  obtain ⟨dA, hAeq, hAne, hAnone, hAsome⟩ :=
    convertIntField_ok (typedDict r) "version" (by
      intro v hv
      rw [hd1 "version" rfl, rd0_version] at hv
      cases hver : r.version with
      | none => rw [hver] at hv; cases hv
      | some x =>
        rw [hver] at hv
        injection hv with hv
        subst hv
        exact ⟨.i x, pyInt_int x⟩)
  obtain ⟨dB, hBeq, hBne, hBnone, hBsome⟩ :=
    convertIntField_ok dA "row_id" (by
      intro v hv
      rw [hAne "row_id" rfl, hd1 "row_id" rfl, rd0_row_id] at hv
      cases hver : r.row_id with
      | none => rw [hver] at hv; cases hv
      | some x =>
        rw [hver] at hv
        injection hv with hv
        subst hv
        exact ⟨.i x, pyInt_int x⟩)
  obtain ⟨dC, hCeq, hCne, hCnone, hCsome⟩ :=
    convertIntField_ok dB "from_storage_location_id" (by
      intro v hv
      rw [hBne "from_storage_location_id" rfl,
        hAne "from_storage_location_id" rfl,
        hd1 "from_storage_location_id" rfl, rd0_fsl] at hv
      cases hver : r.from_storage_location_id with
      | none => rw [hver] at hv; cases hv
      | some x =>
        rw [hver] at hv
        injection hv with hv
        subst hv
        exact ⟨.i x, pyInt_int x⟩)
  obtain ⟨dD, hDeq, hDne, hDnone, hDsome⟩ :=
    convertIntField_ok dC "from_file_handle_id" (by
      intro v hv
      rw [hCne "from_file_handle_id" rfl, hBne "from_file_handle_id" rfl,
        hAne "from_file_handle_id" rfl, hd1 "from_file_handle_id" rfl,
        rd0_ffh] at hv
      cases hver : r.from_file_handle_id with
      | none => rw [hver] at hv; cases hv
      | some s =>
        rw [hver] at hv
        injection hv with hv
        obtain ⟨n, hn⟩ := hfrom s hver
        subst hv
        exact ⟨.i n, pyInt_str hn⟩)
  obtain ⟨dE, hEeq, hEne, hEnone, hEsome⟩ :=
    convertIntField_ok dD "to_file_handle_id" (by
      intro v hv
      rw [hDne "to_file_handle_id" rfl, hCne "to_file_handle_id" rfl,
        hBne "to_file_handle_id" rfl, hAne "to_file_handle_id" rfl,
        hd1 "to_file_handle_id" rfl, rd0_tfh] at hv
      cases hver : r.to_file_handle_id with
      | none => rw [hver] at hv; cases hv
      | some s =>
        rw [hver] at hv
        injection hv with hv
        obtain ⟨n, hn⟩ := hto s hver
        subst hv
        exact ⟨.i n, pyInt_str hn⟩)
  have hfold : foldConvert intFields (typedDict r) = .ok dE := by
    show foldConvert
      ["version", "row_id", "from_storage_location_id",
        "from_file_handle_id", "to_file_handle_id"] (typedDict r) = .ok dE
    simp only [foldConvert, hAeq, hBeq, hCeq, hDeq, hEeq]
  have hE_col : lookupRD dE "col_id" = r.col_id.map .i := by
    rw [hEne "col_id" rfl, hDne "col_id" rfl, hCne "col_id" rfl,
      hBne "col_id" rfl, hAne "col_id" rfl, hd1 "col_id" rfl, rd0_col_id]
  have hE_status : lookupRD dE "status" = some (.i r.status) := by
    rw [hEne "status" rfl, hDne "status" rfl, hCne "status" rfl,
      hBne "status" rfl, hAne "status" rfl, hd1 "status" rfl, rd0_status]
  have hE_exc : lookupRD dE "exception" = r.exception.map .s := by
    rw [hEne "exception" rfl, hDne "exception" rfl, hCne "exception" rfl,
      hBne "exception" rfl, hAne "exception" rfl, hd1 "exception" rfl,
      rd0_exception]
  obtain ⟨recd, hrec, hre, hrecol⟩ :
      ∃ recd, migrationRecord colName r = .ok recd ∧
        (∀ k, ("status" == k) = false → ("col_id" == k) = false →
          ("col_name" == k) = false → lookupRD recd k = lookupRD dE k) ∧
        lookupRD recd "col_id" = none := by
    have hmr : ∀ d4, withColName colName dE = d4 →
        withStatusName d4 = .ok (setRD d4 "status" (.s nm)) →
        migrationRecord colName r = .ok (setRD d4 "status" (.s nm)) := by
      intro d4 h4 hs
      unfold migrationRecord
      simp only [hfold]
      rw [h4, hs]
    cases hcol : r.col_id with
    | none =>
      have hcol' : lookupRD dE "col_id" = none := by
        rw [hE_col, hcol]
        rfl
      have hst4 : lookupRD (popRD dE "col_id") "status" =
          some (.i r.status) := by
        rw [lookupRD_popRD_ne dE "col_id" "status" rfl, hE_status]
      refine ⟨_, hmr _ (withColName_of_none colName hcol')
        (withStatusName_ok hst4 hnm), ?_, ?_⟩
      · intro k hks hkc _
        rw [lookupRD_setRD_ne _ "status" k _ hks,
          lookupRD_popRD_ne dE "col_id" k hkc]
      · rw [lookupRD_setRD_ne _ "status" "col_id" _ rfl, lookupRD_popRD_self]
    | some c =>
      have hcol' : lookupRD dE "col_id" = some (.i c) := by
        rw [hE_col, hcol]
        rfl
      have hst4 : lookupRD (popRD dE "col_id" ++
          [("col_name", .s (colName c))]) "status" = some (.i r.status) := by
        rw [lookupRD_append_right_none (popRD dE "col_id")
            [("col_name", .s (colName c))] "status" rfl,
          lookupRD_popRD_ne dE "col_id" "status" rfl, hE_status]
      refine ⟨_, hmr _ (withColName_of_some colName hcol')
        (withStatusName_ok hst4 hnm), ?_, ?_⟩
      · intro k hks hkc hkn
        rw [lookupRD_setRD_ne _ "status" k _ hks,
          lookupRD_append_right_none (popRD dE "col_id")
            [("col_name", .s (colName c))] k
            ((lookupRD_cons_false hkn).trans rfl),
          lookupRD_popRD_ne dE "col_id" k hkc]
      · rw [lookupRD_setRD_ne _ "status" "col_id" _ rfl,
          lookupRD_append_right_none (popRD dE "col_id")
            [("col_name", .s (colName c))] "col_id" rfl,
          lookupRD_popRD_self]
  have hlk : ∀ f, ("status" == f) = false → ("col_id" == f) = false →
      ("col_name" == f) = false →
      recLookup colName r f = .ok (lookupRD dE f) := by
    intro f h1 h2 h3
    unfold recLookup
    rw [hrec]
    show Except.ok (lookupRD recd f) = Except.ok (lookupRD dE f)
    rw [hre f h1 h2 h3]
  refine ⟨by rw [hrec]; rfl, ?_, ?_, ?_, ?_, ?_, ?_, ?_, ?_, ?_, ?_, ?_, ?_⟩
  · intro h
    rw [hlk "version" rfl rfl rfl, hEne "version" rfl, hDne "version" rfl,
      hCne "version" rfl, hBne "version" rfl,
      hAnone (by rw [hd1 "version" rfl, rd0_version, h]; rfl)]
  · intro v h
    rw [hlk "version" rfl rfl rfl, hEne "version" rfl, hDne "version" rfl,
      hCne "version" rfl, hBne "version" rfl,
      hAsome (.i v) (.i v)
        (by rw [hd1 "version" rfl, rd0_version, h]; rfl) rfl]
  · intro h
    rw [hlk "row_id" rfl rfl rfl, hEne "row_id" rfl, hDne "row_id" rfl,
      hCne "row_id" rfl,
      hBnone
        (by rw [hAne "row_id" rfl, hd1 "row_id" rfl, rd0_row_id, h]; rfl)]
  · intro v h
    rw [hlk "row_id" rfl rfl rfl, hEne "row_id" rfl, hDne "row_id" rfl,
      hCne "row_id" rfl,
      hBsome (.i v) (.i v)
        (by rw [hAne "row_id" rfl, hd1 "row_id" rfl, rd0_row_id, h]; rfl)
        rfl]
  · intro h
    rw [hlk "from_storage_location_id" rfl rfl rfl,
      hEne "from_storage_location_id" rfl,
      hDne "from_storage_location_id" rfl,
      hCnone (by rw [hBne "from_storage_location_id" rfl,
        hAne "from_storage_location_id" rfl,
        hd1 "from_storage_location_id" rfl, rd0_fsl, h]; rfl)]
  · intro v h
    rw [hlk "from_storage_location_id" rfl rfl rfl,
      hEne "from_storage_location_id" rfl,
      hDne "from_storage_location_id" rfl,
      hCsome (.i v) (.i v)
        (by rw [hBne "from_storage_location_id" rfl,
          hAne "from_storage_location_id" rfl,
          hd1 "from_storage_location_id" rfl, rd0_fsl, h]; rfl) rfl]
  · intro h
    rw [hlk "from_file_handle_id" rfl rfl rfl,
      hEne "from_file_handle_id" rfl,
      hDnone (by rw [hCne "from_file_handle_id" rfl,
        hBne "from_file_handle_id" rfl, hAne "from_file_handle_id" rfl,
        hd1 "from_file_handle_id" rfl, rd0_ffh, h]; rfl)]
  · intro s n h hn
    rw [hlk "from_file_handle_id" rfl rfl rfl,
      hEne "from_file_handle_id" rfl,
      hDsome (.s s) (.i n)
        (by rw [hCne "from_file_handle_id" rfl,
          hBne "from_file_handle_id" rfl, hAne "from_file_handle_id" rfl,
          hd1 "from_file_handle_id" rfl, rd0_ffh, h]; rfl)
        (pyInt_str hn)]
  · intro h
    rw [hlk "to_file_handle_id" rfl rfl rfl,
      hEnone (by rw [hDne "to_file_handle_id" rfl,
        hCne "to_file_handle_id" rfl, hBne "to_file_handle_id" rfl,
        hAne "to_file_handle_id" rfl, hd1 "to_file_handle_id" rfl,
        rd0_tfh, h]; rfl)]
  · intro s n h hn
    rw [hlk "to_file_handle_id" rfl rfl rfl,
      hEsome (.s s) (.i n)
        (by rw [hDne "to_file_handle_id" rfl, hCne "to_file_handle_id" rfl,
          hBne "to_file_handle_id" rfl, hAne "to_file_handle_id" rfl,
          hd1 "to_file_handle_id" rfl, rd0_tfh, h]; rfl)
        (pyInt_str hn)]
  · intro h
    rw [hlk "exception" rfl rfl rfl, hE_exc, h]
    rfl
  · unfold recLookup
    rw [hrec]
    show Except.ok (lookupRD recd "col_id") = Except.ok none
    rw [hrecol]

theorem C10_witness :
    (erroredRow.type = FILE ∨ erroredRow.type = TABLE_ATTACHED_FILE) ∧
    statusName erroredRow.status ≠ none ∧
    ((migrationRecord (fun _ => "colA") erroredRow).isOk = true ∧
      recLookup (fun _ => "colA") erroredRow "to_file_handle_id" =
        .ok none ∧
      recLookup (fun _ => "colA") erroredRow "from_file_handle_id" =
        .ok (some (.i 101))) := by
  have h := C10_record_fields (fun _ => "colA") erroredRow (Or.inl rfl)
    (by decide)
    (fun s hs => by
      injection hs with hs
      subst hs
      exact ⟨101, rfl⟩)
    (fun s hs => by cases hs)
  exact ⟨Or.inl rfl, by decide,
    h.1, h.2.2.2.2.2.2.2.2.2.1 rfl, h.2.2.2.2.2.2.2.2.1 "101" 101 rfl rfl⟩

end SynapseMigrate